import Mathlib

/-!
Verification of the geometric core of the 3dvisual application
(`src/App.jsx`): orientation math, pairwise collision detection, and the
bidirectional text codec (`handleExport` / `handleFileImport`).

Modelling conventions (shallow embedding):
* JavaScript numbers are modelled as exact rationals (`ℚ`).  Floating-point
  rounding is not modelled; `toFixed(6)` is modelled exactly on rationals
  with the ECMAScript rounding rule (negative numbers are formatted by
  sign-splitting, ties go to the larger digit).
* JavaScript strings are modelled as `List Char` (`JsStr`).
* `Math.sqrt`, `Math.cos`, `Math.sin` and `Math.atan2` are transcendental,
  so they are threaded through the embedding as components of a
  `JsMathModel` parameter.  Every call site in the source that *compares*
  a square root against a bound is modelled by the algebraically
  equivalent comparison of squares (`sqrtLt`, `sqrtLe`, `divSqrtLt`,
  `ltMulSqrt` below); each of these is proved equivalent to the
  corresponding `Real.sqrt` comparison, so theorems can be stated against
  genuine Euclidean distances.
* The source multiplies rotations by `Math.PI` before calling
  `Math.cos`/`Math.sin`, and divides `Math.atan2` results by `Math.PI`.
  The model fuses those: `cospi v` models `Math.cos (v * π)`,
  `sinpi v` models `Math.sin (v * π)`, and `at2 y x` models
  `Math.atan2 (y, x) / π`.
-/

/-! ### JavaScript strings -/

/-- Model of a JavaScript string: a list of characters. -/
abbrev JsStr := List Char

/-- Convenience: convert a Lean string literal into a `JsStr`. -/
def js (s : String) : JsStr := s.data

/-- Model of the whitespace class used by `trim`, `split(/\s+/)` and
`\s` in the material-line regular expression (the inputs we care about
contain only spaces, tabs, CR and LF). -/
def isWsChar (c : Char) : Bool := c = ' ' || c = '\t' || c = '\r' || c = '\n'

/-- `l.startsWith p` for character lists: models `String.prototype.startsWith`. -/
def startsWithJs : JsStr → JsStr → Bool
  | _, [] => true
  | [], _ :: _ => false
  | c :: cs, p :: ps => c = p && startsWithJs cs ps

/-- Model of `String.prototype.trim`: drop whitespace from both ends. -/
def trimChars (l : JsStr) : JsStr :=
  ((l.dropWhile isWsChar).reverse.dropWhile isWsChar).reverse

/-- Model of `text.split('\n')`: split at every newline, keeping empty
pieces (so the result always has one more entry than there are newlines). -/
def splitNl : JsStr → List JsStr
  | [] => [[]]
  | c :: cs =>
    if c = '\n' then [] :: splitNl cs
    else
      match splitNl cs with
      | [] => [[c]]
      | t :: ts => (c :: t) :: ts

/-- One `foldr` step of `splitWsChars`: state is (current token, finished
tokens to the right). -/
def splitWsStep (c : Char) (st : JsStr × List JsStr) : JsStr × List JsStr :=
  if isWsChar c then ([], if st.1 = [] then st.2 else st.1 :: st.2)
  else (c :: st.1, st.2)

/-- Model of `line.split(/\s+/)` on a line with no leading whitespace:
split at runs of whitespace, producing the non-empty tokens in order. -/
def splitWsChars (s : JsStr) : List JsStr :=
  let p := s.foldr splitWsStep ([], [])
  if p.1 = [] then p.2 else p.1 :: p.2

/-- Tokens joined by single spaces (the shape of the emitted body lines
and of trimmed material lines). -/
def joinSp : List JsStr → JsStr
  | [] => []
  | [t] => t
  | t :: ts => t ++ ' ' :: joinSp ts

/-- The decimal digit character for `d` (meaningful for `d < 10`). -/
def digitChar (d : ℕ) : Char := Char.ofNat (48 + d)

/-- Fuel-driven worker for `natChars`; structural in the fuel so that it
reduces definitionally. -/
def natCharsAux : ℕ → ℕ → JsStr
  | 0, _ => []
  | fuel + 1, n =>
    if n < 10 then [digitChar n]
    else natCharsAux fuel (n / 10) ++ [digitChar (n % 10)]

/-- Decimal rendering of a natural number (model of JS number-to-string
for nonnegative integers, as used by template literals for indices). -/
def natChars (n : ℕ) : JsStr := natCharsAux (n + 1) n

/-- Numeric value of a list of decimal digit characters (model of JS
`Number` on an all-digits string). -/
def natOfChars (l : JsStr) : ℕ := l.foldl (fun a c => a * 10 + (c.toNat - 48)) 0

/-- Left-pad the decimal rendering of `f` with zeros to width 6 (the
fractional part of `toFixed(6)`). -/
def pad6 (f : ℕ) : JsStr :=
  List.replicate (6 - (natChars f).length) '0' ++ natChars f

/-- Render a nonnegative number of micro-units as a fixed-point numeral
with six decimals, e.g. `1234567 ↦ "1.234567"`. -/
def fixedChars (m : ℕ) : JsStr := natChars (m / 1000000) ++ '.' :: pad6 (m % 1000000)

/-- The integer of micro-units produced by `x.toFixed(6)` under the
ECMAScript rounding rule: format `|x|`, ties to the larger digit, and
re-attach the sign. -/
def fix6 (x : ℚ) : ℤ :=
  if x < 0 then -⌊-x * 1000000 + 1/2⌋ else ⌊x * 1000000 + 1/2⌋

/-- The rational value denoted by the numeral `x.toFixed(6)`. -/
def round6 (x : ℚ) : ℚ := (fix6 x : ℚ) / 1000000

/-- Model of `x.toFixed(6)` (ECMAScript semantics on exact rationals). -/
def toFixed6 (x : ℚ) : JsStr :=
  if x < 0 then '-' :: fixedChars (⌊-x * 1000000 + 1/2⌋).toNat
  else fixedChars (⌊x * 1000000 + 1/2⌋).toNat

/-- Unsigned body of `parseFloat`: an integer part and an optional
fractional part after a dot, ignoring any trailing garbage; `none` (no
digit at all) models `NaN`. -/
def parseBody (neg : Bool) (rest : JsStr) : Option ℚ :=
  let ip := rest.takeWhile Char.isDigit
  let rest2 := rest.dropWhile Char.isDigit
  let fp :=
    match rest2 with
    | [] => ([] : JsStr)
    | c :: r => if c = '.' then r.takeWhile Char.isDigit else []
  if ip = [] ∧ fp = [] then none
  else
    some ((if neg then (-1 : ℚ) else 1) *
      ((natOfChars ip : ℚ) + (natOfChars fp : ℚ) / 10 ^ fp.length))

/-- Model of `parseFloat` restricted to plain decimal numerals: an
optional sign followed by the numeral body.  (Exponent forms never occur
in the geometry format and are not modelled.) -/
def parseFloatQ (s : JsStr) : Option ℚ :=
  match s with
  | [] => none
  | c :: r =>
    if c = '-' then parseBody true r
    else if c = '+' then parseBody false r
    else parseBody false (c :: r)

/-- `parseFloat` with `NaN` collapsed to `0`.  The source lets `NaN`
propagate into geometry fields; no claim observes those fields, and every
numeric theorem carries parse-success hypotheses. -/
def parseFloatD (s : JsStr) : ℚ := (parseFloatQ s).getD 0

/-- Model of the material-line test `line.match(/^\d+(\s+\d+)*$/)`,
valid for lines that were already trimmed: non-empty and consisting of
digits and interior whitespace only. -/
def isNumericLine (l : JsStr) : Bool :=
  !l.isEmpty && l.all fun c => c.isDigit || isWsChar c

/-! ### Data model -/

/-- A 3-vector of rationals (model of the JS `[x, y, z]` arrays). -/
structure Vec3 where
  x : ℚ
  y : ℚ
  z : ℚ
deriving DecidableEq

/-- Componentwise subtraction. -/
def vsub (a b : Vec3) : Vec3 := ⟨a.x - b.x, a.y - b.y, a.z - b.z⟩

/-- Componentwise addition. -/
def vadd (a b : Vec3) : Vec3 := ⟨a.x + b.x, a.y + b.y, a.z + b.z⟩

/-- Scalar multiple. -/
def smul (t : ℚ) (a : Vec3) : Vec3 := ⟨t * a.x, t * a.y, t * a.z⟩

/-- Dot product. -/
def dotv (a b : Vec3) : ℚ := a.x * b.x + a.y * b.y + a.z * b.z

/-- Cross product, with the component formulas of the source. -/
def crossv (a b : Vec3) : Vec3 :=
  ⟨a.y * b.z - a.z * b.y, a.z * b.x - a.x * b.z, a.x * b.y - a.y * b.x⟩

/-- Squared Euclidean norm. -/
def normSq (a : Vec3) : ℚ := a.x * a.x + a.y * a.y + a.z * a.z

/-- The material tags stored in `materialType` (the source stores the
strings 'concrete' | 'steel' | 'wood' | 'standard'). -/
inductive MatName where
  | concrete
  | steel
  | wood
  | standard
deriving DecidableEq

/-- Export-side `materialMap` (`{concrete:1, steel:2, wood:3, standard:4}`).
It is total on the four tags, so the `|| 1` fallback of the source never
fires in the model. -/
def materialMap : MatName → ℕ
  | .concrete => 1
  | .steel => 2
  | .wood => 3
  | .standard => 4

/-- Import-side `materialMapReverse`, with the `|| 'concrete'` fallback for
unmapped codes. -/
def materialMapReverse (n : ℕ) : MatName :=
  match n with
  | 1 => .concrete
  | 2 => .steel
  | 3 => .wood
  | 4 => .standard
  | _ => .concrete

/-- One entry of `cylinderParams`. -/
structure Cyl where
  radiusTop : ℚ
  radiusBottom : ℚ
  height : ℚ
  rotation : Vec3
  position : Vec3
  materialType : MatName
deriving DecidableEq

/-- One entry of `sphereParams`. -/
structure Sph where
  radius : ℚ
  position : Vec3
  materialType : MatName
deriving DecidableEq

/-- Primitive kind tag (`selectedObjectType`, and the `type` field of
`objectOrder` entries in the importer). -/
inductive ObjType where
  | cylinder
  | sphere
deriving DecidableEq

/-- The abstract transcendental functions of `Math` used by the source,
in π-scaled form: `cospi v = cos (v*π)`, `sinpi v = sin (v*π)`,
`sq x = Math.sqrt x`, `at2 y x = Math.atan2 (y, x) / π`.  Theorems state
pointwise hypotheses pinning these at the arguments where they are used. -/
structure JsMathModel where
  cospi : ℚ → ℚ
  sinpi : ℚ → ℚ
  sq : ℚ → ℚ
  at2 : ℚ → ℚ → ℚ

/-! ### OrientationMath -/

/-- Model of `eulerToDirection([rotX, rotY, rotZ])`.  The source receives
the rotation already multiplied by `Math.PI` and applies `Math.cos`/`sin`;
here `rot` is the stored rotation (in units of π) and `F.cospi`/`F.sinpi`
are the fused cosine/sine.  The final normalisation divides by
`Math.sqrt` of the squared length, modelled by `F.sq`. -/
def eulerToDirection (F : JsMathModel) (rot : Vec3) : Vec3 :=
  let c1 := F.cospi rot.x
  let s1 := F.sinpi rot.x
  let c2 := F.cospi rot.y
  let s2 := F.sinpi rot.y
  let c3 := F.cospi rot.z
  let s3 := F.sinpi rot.z
  -- start with v = [0, 1, 0]; X rotation
  let vy := 1 * c1 - 0 * s1
  let vz := 1 * s1 + 0 * c1
  let vx : ℚ := 0
  -- Y rotation
  let vx2 := vx * c2 + vz * s2
  let vz2 := -vx * s2 + vz * c2
  let vy2 := vy
  -- Z rotation
  let vx3 := vx2 * c3 - vy2 * s3
  let vy3 := vx2 * s3 + vy2 * c3
  let vz3 := vz2
  let len := F.sq (vx3 * vx3 + vy3 * vy3 + vz3 * vz3)
  ⟨vx3 / len, vy3 / len, vz3 / len⟩

/-! ### Square-root comparisons

The collision tests compare `Math.sqrt e` against bounds.  Over exact
arithmetic those comparisons are equivalent to polynomial comparisons,
which is how they are embedded; the bridge lemmas below prove each
equivalent to the corresponding `Real.sqrt` statement. -/

/-- `sqrtLt e b` decides `Real.sqrt e < b` for `0 ≤ e`. -/
def sqrtLt (e b : ℚ) : Bool := decide (0 < b ∧ e < b * b)

/-- `sqrtLe e b` decides `Real.sqrt e ≤ b` for `0 ≤ e`. -/
def sqrtLe (e b : ℚ) : Bool := decide (0 ≤ b ∧ e ≤ b * b)

/-- `divSqrtLt q v b` decides `|q| / Real.sqrt v < b` for `0 < v`. -/
def divSqrtLt (q v b : ℚ) : Bool := decide (0 < b ∧ q * q < b * b * v)

/-- `ltMulSqrt a c v` decides `a < c * Real.sqrt v` for `0 ≤ v`. -/
def ltMulSqrt (a c v : ℚ) : Bool :=
  if 0 ≤ c then decide (a < 0 ∨ a * a < c * c * v)
  else decide (a < 0 ∧ c * c * v < a * a)

/-! ### CollisionEngine -/

/-- Axis-segment start of a cylinder: `center − 0.5·height·dir`
(the source computes it componentwise). -/
def cylStart (F : JsMathModel) (c : Cyl) : Vec3 :=
  vsub c.position (smul (1/2 * c.height) (eulerToDirection F c.rotation))

/-- Axis-segment end of a cylinder: `center + 0.5·height·dir`. -/
def cylEnd (F : JsMathModel) (c : Cyl) : Vec3 :=
  vadd c.position (smul (1/2 * c.height) (eulerToDirection F c.rotation))

/-- The axis vector `end − start` used by the collision tests. -/
def cylAxis (F : JsMathModel) (c : Cyl) : Vec3 :=
  vsub (cylEnd F c) (cylStart F c)

/-- Model of `checkCylinderCollision`.  `crossMag < 0.001` becomes
`sqrtLt crossSq (1/1000)`; the center-distance and line-distance
comparisons become `sqrtLt`/`divSqrtLt` of the squared quantities. -/
def checkCylinderCollision (F : JsMathModel) (cyl1 cyl2 : Cyl) : Bool :=
  let r1 := cyl1.radiusTop
  let r2 := cyl2.radiusTop
  let axis1 := cylAxis F cyl1
  let axis2 := cylAxis F cyl2
  let cross := crossv axis1 axis2
  let crossSq := normSq cross
  if sqrtLt crossSq (1/1000) then
    sqrtLt (normSq (vsub cyl2.position cyl1.position)) (r1 + r2)
  else
    let vec := vsub (cylStart F cyl2) (cylStart F cyl1)
    divSqrtLt (dotv vec cross) crossSq (r1 + r2)

/-- Model of `checkSphereCollision` (`epsilon = 0.01`). -/
def checkSphereCollision (sph1 sph2 : Sph) : Bool :=
  sqrtLt (normSq (vsub sph2.position sph1.position))
    (sph1.radius + sph2.radius - 1/100)

/-- Model of `checkCylinderSphereCollision`.  The source computes
`t = dot(vec,axis) / axisLength²` with `axisLength = Math.sqrt axisSq`;
over exact arithmetic `axisLength² = axisSq`.  `distAlongAxis = q/axisLength`
(`q := dot(v, axis)`), so `proj = s − (q/axisSq)·axis`, and the three
square-root comparisons are embedded via `sqrtLe`, `divSqrtLt` and
`ltMulSqrt` (see the bridge lemmas). -/
def checkCylinderSphereCollision (F : JsMathModel) (cyl : Cyl) (sph : Sph) : Bool :=
  let s := sph.position
  let cylRadius := cyl.radiusTop
  let sphRadius := sph.radius
  let start := cylStart F cyl
  let end_ := cylEnd F cyl
  let vec := vsub s start
  let axis := vsub end_ start
  let axisSq := dotv axis axis
  let t := dotv vec axis / axisSq
  let tC := max 0 (min 1 t)
  let closest := vadd start (smul tC axis)
  let distSq := normSq (vsub s closest)
  if tC = 0 ∨ tC = 1 then
    let cap := if tC = 0 then start else end_
    let v := vsub s cap
    let q := dotv v axis
    let proj := vsub s (smul (q / axisSq) axis)
    let radialSq := normSq (vsub proj cap)
    if sqrtLe radialSq cylRadius then divSqrtLt q axisSq sphRadius
    else
      -- rimDist = sqrt((radialDist − cylRadius)² + distAlongAxis²) < sphRadius
      decide (0 < sphRadius) &&
        ltMulSqrt (radialSq + cylRadius * cylRadius + q * q / axisSq
            - sphRadius * sphRadius)
          (2 * cylRadius) radialSq
  else
    sqrtLt distSq (cylRadius + sphRadius)

/-- Cylinder–cylinder pass of `detectCollisions`: all pairs `i < j`. -/
def ccPairs (F : JsMathModel) : List (JsStr × Cyl) → List (JsStr × JsStr)
  | [] => []
  | (id1, c1) :: rest =>
    (rest.filterMap fun e =>
      if checkCylinderCollision F c1 e.2 then some (id1, e.1) else none) ++
    ccPairs F rest

/-- Sphere–sphere pass of `detectCollisions`. -/
def ssPairs : List (JsStr × Sph) → List (JsStr × JsStr)
  | [] => []
  | (id1, s1) :: rest =>
    (rest.filterMap fun e =>
      if checkSphereCollision s1 e.2 then some (id1, e.1) else none) ++
    ssPairs rest

/-- Cylinder–sphere pass of `detectCollisions`: all (cylinder, sphere)
pairs, cylinders outer. -/
def csPairs (F : JsMathModel) (cyls : List (JsStr × Cyl)) (sphs : List (JsStr × Sph)) :
    List (JsStr × JsStr) :=
  cyls.foldr (fun c acc =>
    (sphs.filterMap fun s =>
      if checkCylinderSphereCollision F c.2 s.2 then some (c.1, s.1) else none) ++ acc) []

/-- Model of `detectCollisions(cylinderParams, sphereParams)`: the three
passes in source order. -/
def detectCollisions (F : JsMathModel) (cyls : List (JsStr × Cyl))
    (sphs : List (JsStr × Sph)) : List (JsStr × JsStr) :=
  ccPairs F cyls ++ ssPairs sphs ++ csPairs F cyls sphs

/-! ### SceneCodec — export -/

/-- The `rcc` body line of `handleExport` for one cylinder (without the
trailing newline): `rcc <index> <baseX> <baseY> <baseZ> <dirX·h> <dirY·h>
<dirZ·h> <radius>`, reals via `toFixed(6)`. -/
def rccLine (F : JsMathModel) (idx : ℕ) (p : Cyl) : JsStr :=
  let d := eulerToDirection F p.rotation
  js "rcc " ++ natChars idx ++
  ' ' :: toFixed6 (p.position.x - 1/2 * p.height * d.x) ++
  ' ' :: toFixed6 (p.position.y - 1/2 * p.height * d.y) ++
  ' ' :: toFixed6 (p.position.z - 1/2 * p.height * d.z) ++
  ' ' :: toFixed6 (d.x * p.height) ++
  ' ' :: toFixed6 (d.y * p.height) ++
  ' ' :: toFixed6 (d.z * p.height) ++
  ' ' :: toFixed6 p.radiusTop

/-- The `sph` body line of `handleExport` for one sphere. -/
def sphLine (idx : ℕ) (p : Sph) : JsStr :=
  js "sph " ++ natChars idx ++
  ' ' :: toFixed6 p.position.x ++
  ' ' :: toFixed6 p.position.y ++
  ' ' :: toFixed6 p.position.z ++
  ' ' :: toFixed6 p.radius

/-- The zone line `zn<index> 1 <index>`. -/
def znLine (idx : ℕ) : JsStr := js "zn" ++ natChars idx ++ js " 1 " ++ natChars idx

/-- The cylinder body loop of `handleExport` (index-carrying recursion in
place of the mutable `index` variable). -/
def exportBodyCyl (F : JsMathModel) : ℕ → List (JsStr × Cyl) → JsStr
  | _, [] => []
  | i, e :: rest => rccLine F i e.2 ++ '\n' :: exportBodyCyl F (i + 1) rest

/-- The sphere body loop of `handleExport`. -/
def exportBodySph : ℕ → List (JsStr × Sph) → JsStr
  | _, [] => []
  | i, e :: rest => sphLine i e.2 ++ '\n' :: exportBodySph (i + 1) rest

/-- The zone loops of `handleExport`: one `zn` line per primitive, the
index running on from 1 (the loops only use the running index). -/
def exportZones : ℕ → ℕ → JsStr
  | _, 0 => []
  | i, k + 1 => znLine i ++ '\n' :: exportZones (i + 1) k

/-- The material loops of `handleExport`: each code followed by a space,
no newline between codes. -/
def exportMats : List ℕ → JsStr
  | [] => []
  | c :: rest => natChars c ++ ' ' :: exportMats rest

/-- The material codes of a scene, cylinders first, in insertion order. -/
def sceneMats (cyls : List (JsStr × Cyl)) (sphs : List (JsStr × Sph)) : List ℕ :=
  cyls.map (fun e => materialMap e.2.materialType) ++
  sphs.map (fun e => materialMap e.2.materialType)

/-- Model of the serialization built by `handleExport` (the collision
warning and the download glue are UI and not part of the string).  Mirrors
the source's appends: bodies, `end body`, zones, `end zone`, the material
codes, a newline, and the sentinel footer line. -/
def handleExport (F : JsMathModel) (cyls : List (JsStr × Cyl))
    (sphs : List (JsStr × Sph)) : JsStr :=
  exportBodyCyl F 1 cyls ++
  exportBodySph (cyls.length + 1) sphs ++
  js "end body" ++ '\n' ::
  exportZones 1 (cyls.length + sphs.length) ++
  js "end zone" ++ '\n' ::
  exportMats (sceneMats cyls sphs) ++
  '\n' :: js "oesnt worend geom" ++ ['\n']

/-! ### SceneCodec — import -/

/-- The mutable state of the line loop in `handleFileImport`. -/
structure ScanState where
  cyls : List (JsStr × Cyl)
  sphs : List (JsStr × Sph)
  cylIndex : ℕ
  sphIndex : ℕ
  objectOrder : List (ObjType × JsStr)
  materialList : List ℕ
deriving DecidableEq

/-- Initial scan state (`newCylinderParams = {}` …, indices start at 1). -/
def scanInit : ScanState := ⟨[], [], 1, 1, [], []⟩

/-- One iteration of the `for (let line of lines)` loop of
`handleFileImport`: trim, then classify by prefix (`rcc`, `sph`) or by the
all-numeric regular expression. -/
def processLine (F : JsMathModel) (st : ScanState) (raw : JsStr) : ScanState :=
  let line := trimChars raw
  if startsWithJs line (js "rcc") then
    let parts := splitWsChars line
    if 9 ≤ parts.length then
      let posX := parseFloatD (parts.getD 2 [])
      let posY := parseFloatD (parts.getD 3 [])
      let posZ := parseFloatD (parts.getD 4 [])
      let dirX := parseFloatD (parts.getD 5 [])
      let dirY := parseFloatD (parts.getD 6 [])
      let dirZ := parseFloatD (parts.getD 7 [])
      let radius := parseFloatD (parts.getD 8 [])
      let height := F.sq (dirX * dirX + dirY * dirY + dirZ * dirZ)
      let rotY := F.at2 dirX dirZ
      let rotX := F.at2 (F.sq (dirX * dirX + dirZ * dirZ)) dirY
      let id := js "cylinder" ++ natChars st.cylIndex
      { st with
        cyls := st.cyls ++ [(id,
          { radiusTop := radius, radiusBottom := radius, height := height,
            rotation := ⟨rotX, rotY, 0⟩,
            position := ⟨posX + dirX / 2, posY + dirY / 2, posZ + dirZ / 2⟩,
            materialType := .concrete })],
        cylIndex := st.cylIndex + 1,
        objectOrder := st.objectOrder ++ [(.cylinder, id)] }
    else st
  else if startsWithJs line (js "sph") then
    let parts := splitWsChars line
    if 6 ≤ parts.length then
      let posX := parseFloatD (parts.getD 2 [])
      let posY := parseFloatD (parts.getD 3 [])
      let posZ := parseFloatD (parts.getD 4 [])
      let radius := parseFloatD (parts.getD 5 [])
      let id := js "sphere" ++ natChars st.sphIndex
      { st with
        sphs := st.sphs ++ [(id,
          { radius := radius, position := ⟨posX, posY, posZ⟩,
            materialType := .concrete })],
        sphIndex := st.sphIndex + 1,
        objectOrder := st.objectOrder ++ [(.sphere, id)] }
    else st
  else if isNumericLine line then
    { st with materialList := (splitWsChars line).map natOfChars }
  else st

/-- The whole line loop. -/
def scanLines (F : JsMathModel) (lines : List JsStr) : ScanState :=
  lines.foldl (processLine F) scanInit

/-- Update the material of the cylinder stored under `id`
(`newCylinderParams[obj.id].materialType = matType`). -/
def updCylMat (id : JsStr) (m : MatName) : List (JsStr × Cyl) → List (JsStr × Cyl) :=
  List.map fun e => if e.1 = id then (e.1, { e.2 with materialType := m }) else e

/-- Update the material of the sphere stored under `id`. -/
def updSphMat (id : JsStr) (m : MatName) : List (JsStr × Sph) → List (JsStr × Sph) :=
  List.map fun e => if e.1 = id then (e.1, { e.2 with materialType := m }) else e

/-- The `materialList.forEach` body applied over `zip objectOrder
materialList` (the lists have equal length when this runs, so the
index-based `objectOrder[idx]` lookup of the source is the zip). -/
def assignMats : List ((ObjType × JsStr) × ℕ) → ScanState → ScanState
  | [], st => st
  | (ref, code) :: rest, st =>
    assignMats rest <|
      match ref.1 with
      | .cylinder => { st with cyls := updCylMat ref.2 (materialMapReverse code) st.cyls }
      | .sphere => { st with sphs := updSphMat ref.2 (materialMapReverse code) st.sphs }

/-- Scan plus the guarded material-assignment step of `handleFileImport`. -/
def importCore (F : JsMathModel) (text : JsStr) : ScanState :=
  let st := scanLines F (splitNl text)
  if st.materialList.length > 0 ∧ st.objectOrder.length = st.materialList.length then
    assignMats (st.objectOrder.zip st.materialList) st
  else st

/-- The imported cylinder map (in insertion order). -/
def importedCylinders (F : JsMathModel) (text : JsStr) : List (JsStr × Cyl) :=
  (importCore F text).cyls

/-- The imported sphere map (in insertion order). -/
def importedSpheres (F : JsMathModel) (text : JsStr) : List (JsStr × Sph) :=
  (importCore F text).sphs

/-- The React state touched by import: the two parameter maps and the
selection. -/
structure AppState where
  cylinderParams : List (JsStr × Cyl)
  sphereParams : List (JsStr × Sph)
  selectedObject : JsStr
  selectedObjectType : ObjType
deriving DecidableEq

/-- The completion step of `handleFileImport`: replace the scene wholesale
and select `cylinder1` (else `sphere1`) when at least one primitive was
recognized; otherwise keep the old state and raise the alert (the returned
`Bool` is true iff the empty-result alert fired). -/
def handleFileImport (F : JsMathModel) (old : AppState) (text : JsStr) :
    AppState × Bool :=
  let st := importCore F text
  if st.cyls.length > 0 ∨ st.sphs.length > 0 then
    ({ cylinderParams := st.cyls, sphereParams := st.sphs,
       selectedObject := if st.cyls.length > 0 then js "cylinder1" else js "sphere1",
       selectedObjectType := if st.cyls.length > 0 then .cylinder else .sphere },
     false)
  else (old, true)

/-! ### Remaining named definitions used by the theorems -/

/-- A concrete `JsMathModel` used to instantiate witnesses and
counterexamples.  Each table entry agrees with the genuine real-valued
function at that point (`cos 0 = 1`, `sin (±π/2) = ±1`, `√4 = 2`, …);
theorems only constrain the model through such pointwise facts. -/
def mathW : JsMathModel where
  cospi q := if q = 0 then 1 else 0
  sinpi q := if q = 1/2 then 1 else if q = -1/2 then -1 else 0
  sq q :=
    if q = 0 then 0 else if q = 1 then 1 else if q = 4 then 2
    else if q = 25 then 5 else if q = 9/1000000000000 then 3/1000000 else 0
  at2 _ _ := 0

/-- The identifier `cylinder<i>` generated by the importer. -/
def cylName (i : ℕ) : JsStr := js "cylinder" ++ natChars i

/-- The identifier `sphere<i>` generated by the importer. -/
def sphName (i : ℕ) : JsStr := js "sphere" ++ natChars i

/-- The renumbered identifier list `cylinder1 … cylinderN`. -/
def cylNames (n : ℕ) : List JsStr := (List.range n).map fun i => cylName (i + 1)

/-- The renumbered identifier list `sphere1 … sphereM`. -/
def sphNames (n : ℕ) : List JsStr := (List.range n).map fun i => sphName (i + 1)

/-- The cylinder record produced by re-importing the exported `rcc` line of
`p`: every emitted real has passed through `toFixed(6)`/`parseFloat`
(i.e. `round6`), and the importer then applies its reconstruction
formulas. -/
def reimportCyl (F : JsMathModel) (p : Cyl) : Cyl :=
  let d := eulerToDirection F p.rotation
  let bX := round6 (p.position.x - 1/2 * p.height * d.x)
  let bY := round6 (p.position.y - 1/2 * p.height * d.y)
  let bZ := round6 (p.position.z - 1/2 * p.height * d.z)
  let dX := round6 (d.x * p.height)
  let dY := round6 (d.y * p.height)
  let dZ := round6 (d.z * p.height)
  { radiusTop := round6 p.radiusTop, radiusBottom := round6 p.radiusTop,
    height := F.sq (dX * dX + dY * dY + dZ * dZ),
    rotation := ⟨F.at2 (F.sq (dX * dX + dZ * dZ)) dY, F.at2 dX dZ, 0⟩,
    position := ⟨bX + dX / 2, bY + dY / 2, bZ + dZ / 2⟩,
    materialType := .concrete }

/-- The sphere record produced by re-importing the exported `sph` line of `p`. -/
def reimportSph (p : Sph) : Sph :=
  { radius := round6 p.radius,
    position := ⟨round6 p.position.x, round6 p.position.y, round6 p.position.z⟩,
    materialType := .concrete }

/-- Join a list of lines, each terminated by a newline. -/
def joinLines (L : List JsStr) : JsStr := (L.map fun l => l ++ ['\n']).flatten

/-- The line list produced by `handleExport`, in the structured form
claimed by the specification: body lines (cylinders before spheres, one
shared 1-based index), `end body`, one zone line per primitive, `end
zone`, the material-code line, and the sentinel footer. -/
def exportLines (F : JsMathModel) (cyls : List (JsStr × Cyl))
    (sphs : List (JsStr × Sph)) : List JsStr :=
  (List.enumFrom 1 cyls).map (fun e => rccLine F e.1 e.2.2) ++
  (List.enumFrom (cyls.length + 1) sphs).map (fun e => sphLine e.1 e.2.2) ++
  [js "end body"] ++
  (List.range (cyls.length + sphs.length)).map (fun k => znLine (k + 1)) ++
  [js "end zone"] ++
  [exportMats (sceneMats cyls sphs), js "oesnt worend geom"]

/-- The token values of the last all-numeric line of the file (`[]` when
there is none): what the scan loop leaves in `materialList`. -/
def lastNumericTokens (lines : List JsStr) : List ℕ :=
  match ((lines.map trimChars).filter fun l => isNumericLine l).getLast? with
  | some t => (splitWsChars t).map natOfChars
  | none => []

/-- Lookup of a cylinder by identifier (insertion-ordered map access). -/
def lookupCyl (cyls : List (JsStr × Cyl)) (id : JsStr) : Option Cyl :=
  (cyls.find? fun e => decide (e.1 = id)).map (·.2)

/-- Lookup of a sphere by identifier. -/
def lookupSph (sphs : List (JsStr × Sph)) (id : JsStr) : Option Sph :=
  (sphs.find? fun e => decide (e.1 = id)).map (·.2)

/-- The material stored in the scan state for an `objectOrder` entry. -/
def refMat (st : ScanState) (ref : ObjType × JsStr) : Option MatName :=
  match ref.1 with
  | .cylinder => (lookupCyl st.cyls ref.2).map (·.materialType)
  | .sphere => (lookupSph st.sphs ref.2).map (·.materialType)

/-- `vec = s − start` of `checkCylinderSphereCollision`. -/
def csVec (F : JsMathModel) (cyl : Cyl) (sph : Sph) : Vec3 :=
  vsub sph.position (cylStart F cyl)

/-- `axisLength²` of `checkCylinderSphereCollision` (exact arithmetic). -/
def csAxisSq (F : JsMathModel) (cyl : Cyl) : ℚ :=
  dotv (cylAxis F cyl) (cylAxis F cyl)

/-- The unclamped projection parameter `t`. -/
def csParam (F : JsMathModel) (cyl : Cyl) (sph : Sph) : ℚ :=
  dotv (csVec F cyl sph) (cylAxis F cyl) / csAxisSq F cyl

/-- The clamped parameter `tClamped`. -/
def csClamped (F : JsMathModel) (cyl : Cyl) (sph : Sph) : ℚ :=
  max 0 (min 1 (csParam F cyl sph))

/-- `closestPoint` on the axis segment. -/
def csClosest (F : JsMathModel) (cyl : Cyl) (sph : Sph) : Vec3 :=
  vadd (cylStart F cyl) (smul (csClamped F cyl sph) (cylAxis F cyl))

/-- Squared distance from the sphere center to `closestPoint`. -/
def csDistSq (F : JsMathModel) (cyl : Cyl) (sph : Sph) : ℚ :=
  normSq (vsub sph.position (csClosest F cyl sph))

/-- The cap center selected when the parameter clamps (`start` or `end`). -/
def csCap (F : JsMathModel) (cyl : Cyl) (sph : Sph) : Vec3 :=
  if csClamped F cyl sph = 0 then cylStart F cyl else cylEnd F cyl

/-- `q = dot (s − capCenter) axis`; `distAlongAxis = q / √axisSq`. -/
def csAxialDot (F : JsMathModel) (cyl : Cyl) (sph : Sph) : ℚ :=
  dotv (vsub sph.position (csCap F cyl sph)) (cylAxis F cyl)

/-- The sphere center projected onto the cap plane. -/
def csProj (F : JsMathModel) (cyl : Cyl) (sph : Sph) : Vec3 :=
  vsub sph.position (smul (csAxialDot F cyl sph / csAxisSq F cyl) (cylAxis F cyl))

/-- Squared in-plane offset of the sphere center from the cap center. -/
def csRadialSq (F : JsMathModel) (cyl : Cyl) (sph : Sph) : ℚ :=
  normSq (vsub (csProj F cyl sph) (csCap F cyl sph))

/-- Everything of a stored cylinder except its material: the fields the
material-assignment pass must leave untouched. -/
def cylShape (e : JsStr × Cyl) : JsStr × ℚ × ℚ × ℚ × Vec3 × Vec3 :=
  (e.1, e.2.radiusTop, e.2.radiusBottom, e.2.height, e.2.rotation, e.2.position)

/-- Everything of a stored sphere except its material. -/
def sphShape (e : JsStr × Sph) : JsStr × ℚ × Vec3 :=
  (e.1, e.2.radius, e.2.position)

/-- The cylinder imported from the token run `0 0 0 0 1 0 1` (base at the
origin, direction `(0,1,0)`, radius 1), exactly as the importer builds
it. -/
def cyl010 (F : JsMathModel) : Cyl :=
  { radiusTop := 1, radiusBottom := 1,
    height := F.sq (0 * 0 + 1 * 1 + 0 * 0),
    rotation := ⟨F.at2 (F.sq (0 * 0 + 0 * 0)) 1, F.at2 0 0, 0⟩,
    position := ⟨0 + 0 / 2, 0 + 1 / 2, 0 + 0 / 2⟩,
    materialType := .concrete }

/-- Invariant of the scan loop: identifiers are `cylinder1 … cylinderN` /
`sphere1 … sphereM` in insertion order, the running indices point one past
the end, and every parsed primitive carries the default `concrete`
material. -/
def ScanInv (st : ScanState) : Prop :=
  st.cyls.map Prod.fst = cylNames st.cyls.length ∧
  st.cylIndex = st.cyls.length + 1 ∧
  st.sphs.map Prod.fst = sphNames st.sphs.length ∧
  st.sphIndex = st.sphs.length + 1 ∧
  (∀ e ∈ st.cyls, e.2.materialType = MatName.concrete) ∧
  (∀ e ∈ st.sphs, e.2.materialType = MatName.concrete)

/-! ### Bridge lemmas: polynomial comparisons vs `Real.sqrt` -/

/-- `normSq` is a sum of squares. -/
theorem normSq_nonneg (a : Vec3) : 0 ≤ normSq a := by
  unfold normSq
  have hx := mul_self_nonneg a.x
  have hy := mul_self_nonneg a.y
  have hz := mul_self_nonneg a.z
  linarith

/-- `sqrtLt` decides the real square-root comparison. -/
theorem sqrtLt_iff (e b : ℚ) (he : (0 : ℚ) ≤ e) :
    sqrtLt e b = true ↔ Real.sqrt (e : ℝ) < (b : ℝ) := by
  unfold sqrtLt
  rw [decide_eq_true_eq]
  have hs : (0 : ℝ) ≤ Real.sqrt (e : ℝ) := Real.sqrt_nonneg _
  have hs2 : Real.sqrt (e : ℝ) ^ 2 = (e : ℝ) := Real.sq_sqrt (by exact_mod_cast he)
  constructor
  · rintro ⟨hb, hlt⟩
    have hb' : (0 : ℝ) < (b : ℝ) := by exact_mod_cast hb
    have hlt' : (e : ℝ) < (b : ℝ) * b := by exact_mod_cast hlt
    nlinarith [hs, hs2]
  · intro h
    have hb' : (0 : ℝ) < (b : ℝ) := lt_of_le_of_lt hs h
    refine ⟨by exact_mod_cast hb', ?_⟩
    have : (e : ℝ) < (b : ℝ) * b := by nlinarith [hs, hs2]
    exact_mod_cast this

/-- `sqrtLe` decides the real square-root comparison. -/
theorem sqrtLe_iff (e b : ℚ) (he : (0 : ℚ) ≤ e) :
    sqrtLe e b = true ↔ Real.sqrt (e : ℝ) ≤ (b : ℝ) := by
  unfold sqrtLe
  rw [decide_eq_true_eq]
  have hs : (0 : ℝ) ≤ Real.sqrt (e : ℝ) := Real.sqrt_nonneg _
  have hs2 : Real.sqrt (e : ℝ) ^ 2 = (e : ℝ) := Real.sq_sqrt (by exact_mod_cast he)
  constructor
  · rintro ⟨hb, hle⟩
    have hb' : (0 : ℝ) ≤ (b : ℝ) := by exact_mod_cast hb
    have hle' : (e : ℝ) ≤ (b : ℝ) * b := by exact_mod_cast hle
    nlinarith [hs, hs2]
  · intro h
    have hb' : (0 : ℝ) ≤ (b : ℝ) := le_trans hs h
    refine ⟨by exact_mod_cast hb', ?_⟩
    have : (e : ℝ) ≤ (b : ℝ) * b := by nlinarith [hs, hs2]
    exact_mod_cast this

/-- `divSqrtLt` decides `|q| / √v < b` for positive `v`. -/
theorem divSqrtLt_iff (q v b : ℚ) (hv : (0 : ℚ) < v) :
    divSqrtLt q v b = true ↔ |(q : ℝ)| / Real.sqrt (v : ℝ) < (b : ℝ) := by
  unfold divSqrtLt
  rw [decide_eq_true_eq]
  have hv' : (0 : ℝ) < (v : ℝ) := by exact_mod_cast hv
  have hs : (0 : ℝ) < Real.sqrt (v : ℝ) := Real.sqrt_pos.mpr hv'
  have hs2 : Real.sqrt (v : ℝ) ^ 2 = (v : ℝ) := Real.sq_sqrt hv'.le
  rw [div_lt_iff₀ hs]
  constructor
  · rintro ⟨hb, hlt⟩
    have hb' : (0 : ℝ) < (b : ℝ) := by exact_mod_cast hb
    have hlt' : (q : ℝ) * q < (b : ℝ) * b * v := by exact_mod_cast hlt
    nlinarith [abs_nonneg (q : ℝ), sq_abs (q : ℝ), hs, hs2,
      mul_pos hb' hs, sq_nonneg (|(q : ℝ)| - b * Real.sqrt (v : ℝ))]
  · intro h
    have hb' : (0 : ℝ) < (b : ℝ) := by
      have := abs_nonneg (q : ℝ)
      nlinarith [hs]
    refine ⟨by exact_mod_cast hb', ?_⟩
    have : (q : ℝ) * q < (b : ℝ) * b * v := by
      nlinarith [abs_nonneg (q : ℝ), sq_abs (q : ℝ), hs, hs2]
    exact_mod_cast this

/-- `ltMulSqrt` decides `a < c · √v` for nonnegative `v`. -/
theorem ltMulSqrt_iff (a c v : ℚ) (hv : (0 : ℚ) ≤ v) :
    ltMulSqrt a c v = true ↔ (a : ℝ) < (c : ℝ) * Real.sqrt (v : ℝ) := by
  unfold ltMulSqrt
  have hv' : (0 : ℝ) ≤ (v : ℝ) := by exact_mod_cast hv
  have hs : (0 : ℝ) ≤ Real.sqrt (v : ℝ) := Real.sqrt_nonneg _
  have hs2 : Real.sqrt (v : ℝ) ^ 2 = (v : ℝ) := Real.sq_sqrt hv'
  by_cases hc : (0 : ℚ) ≤ c
  · have hc' : (0 : ℝ) ≤ (c : ℝ) := by exact_mod_cast hc
    simp only [hc, if_true, decide_eq_true_eq]
    constructor
    · rintro (ha | hlt)
      · have : (a : ℝ) < 0 := by exact_mod_cast ha
        exact lt_of_lt_of_le this (mul_nonneg hc' hs)
      · have hlt' : (a : ℝ) * a < (c : ℝ) * c * v := by exact_mod_cast hlt
        rcases lt_or_le (a : ℝ) 0 with ha | ha
        · exact lt_of_lt_of_le ha (mul_nonneg hc' hs)
        · by_contra hcon
          push_neg at hcon
          have hcs : (0 : ℝ) ≤ (c : ℝ) * Real.sqrt (v : ℝ) := mul_nonneg hc' hs
          have h1 : (c : ℝ) * Real.sqrt (v : ℝ) * ((c : ℝ) * Real.sqrt (v : ℝ))
              ≤ (a : ℝ) * a := mul_le_mul hcon hcon hcs ha
          nlinarith [h1, hs2, hlt']
    · intro h
      rcases lt_or_le (a : ℝ) 0 with ha | ha
      · exact Or.inl (by exact_mod_cast ha)
      · refine Or.inr ?_
        have : (a : ℝ) * a < (c : ℝ) * c * v := by nlinarith [hs, hs2]
        exact_mod_cast this
  · have hc' : (c : ℝ) < 0 := by
      have : c < 0 := lt_of_not_le hc
      exact_mod_cast this
    simp only [hc, if_false, decide_eq_true_eq]
    constructor
    · rintro ⟨ha, hgt⟩
      have ha' : (a : ℝ) < 0 := by exact_mod_cast ha
      have hgt' : (c : ℝ) * c * v < (a : ℝ) * a := by exact_mod_cast hgt
      nlinarith [hs, hs2, sq_nonneg ((a : ℝ) - c * Real.sqrt (v : ℝ)),
        sq_nonneg ((a : ℝ) + c * Real.sqrt (v : ℝ))]
    · intro h
      have hcs : (c : ℝ) * Real.sqrt (v : ℝ) ≤ 0 :=
        mul_nonpos_of_nonpos_of_nonneg hc'.le hs
      have ha' : (a : ℝ) < 0 := lt_of_lt_of_le h hcs
      refine ⟨by exact_mod_cast ha', ?_⟩
      have : (c : ℝ) * c * v < (a : ℝ) * a := by nlinarith [hs, hs2]
      exact_mod_cast this

/-! ### C4: sphere–sphere collisions -/

/-- C4: `checkSphereCollision` reports a collision exactly when the
Euclidean center distance is strictly below `r1 + r2 − 0.01`;
`detectCollisions` on a two-sphere scene reports exactly that pair or
nothing; two unit spheres centered 1.5 apart give exactly one pair, and
centered 2.0 apart give none. -/
theorem C4_sphere_collision :
    (∀ s1 s2 : Sph, checkSphereCollision s1 s2 = true ↔
        Real.sqrt ((normSq (vsub s2.position s1.position) : ℚ) : ℝ) <
          (s1.radius : ℝ) + (s2.radius : ℝ) - 1/100)
    ∧ (∀ (F : JsMathModel) (a b : JsStr) (s1 s2 : Sph),
        detectCollisions F [] [(a, s1), (b, s2)] =
          if checkSphereCollision s1 s2 = true then [(a, b)] else [])
    ∧ detectCollisions mathW []
        [(js "sphere1", ⟨1, ⟨0, 0, 0⟩, .concrete⟩),
         (js "sphere2", ⟨1, ⟨3/2, 0, 0⟩, .concrete⟩)] =
        [(js "sphere1", js "sphere2")]
    ∧ detectCollisions mathW []
        [(js "sphere1", ⟨1, ⟨0, 0, 0⟩, .concrete⟩),
         (js "sphere2", ⟨1, ⟨2, 0, 0⟩, .concrete⟩)] = [] := by
  have key : ∀ s1 s2 : Sph, checkSphereCollision s1 s2 = true ↔
      Real.sqrt ((normSq (vsub s2.position s1.position) : ℚ) : ℝ) <
        (s1.radius : ℝ) + (s2.radius : ℝ) - 1/100 := by
    intro s1 s2
    rw [checkSphereCollision, sqrtLt_iff _ _ (normSq_nonneg _)]
    push_cast
    exact Iff.rfl
  have pair : ∀ (F : JsMathModel) (a b : JsStr) (s1 s2 : Sph),
      detectCollisions F [] [(a, s1), (b, s2)] =
        if checkSphereCollision s1 s2 = true then [(a, b)] else [] := by
    intro F a b s1 s2
    simp only [detectCollisions, ccPairs, ssPairs, csPairs,
      List.filterMap_cons, List.filterMap_nil, List.foldr]
    by_cases h : checkSphereCollision s1 s2 = true <;> simp [h]
  refine ⟨key, pair, ?_, ?_⟩
  · rw [pair]
    have : checkSphereCollision (⟨1, ⟨0, 0, 0⟩, .concrete⟩ : Sph)
        (⟨1, ⟨3/2, 0, 0⟩, .concrete⟩ : Sph) = true := by
      simp only [checkSphereCollision, sqrtLt, vsub, normSq, decide_eq_true_eq]
      norm_num
    rw [this]
    simp
  · rw [pair]
    have : checkSphereCollision (⟨1, ⟨0, 0, 0⟩, .concrete⟩ : Sph)
        (⟨1, ⟨2, 0, 0⟩, .concrete⟩ : Sph) = false := by
      simp only [checkSphereCollision, sqrtLt, vsub, normSq,
        decide_eq_false_iff_not]
      norm_num
    rw [this]
    simp

/-! ### C5 / C6: cylinder–cylinder collisions -/

/-- C5 (amended): `checkCylinderCollision` branches on the cross product
of the *axis vectors* (height-scaled directions).  When its magnitude is
below `1e-3` the test is center distance `< r1+r2`; otherwise it is the
infinite-line distance `|(start2−start1)·cross| / |cross| < r1+r2`. -/
theorem C5_cylinder_collision_amended (F : JsMathModel) (c1 c2 : Cyl) :
    (Real.sqrt ((normSq (crossv (cylAxis F c1) (cylAxis F c2)) : ℚ) : ℝ) < 1/1000 →
      (checkCylinderCollision F c1 c2 = true ↔
        Real.sqrt ((normSq (vsub c2.position c1.position) : ℚ) : ℝ) <
          (c1.radiusTop : ℝ) + (c2.radiusTop : ℝ)))
    ∧ (¬ Real.sqrt ((normSq (crossv (cylAxis F c1) (cylAxis F c2)) : ℚ) : ℝ) < 1/1000 →
      (checkCylinderCollision F c1 c2 = true ↔
        |((dotv (vsub (cylStart F c2) (cylStart F c1))
            (crossv (cylAxis F c1) (cylAxis F c2)) : ℚ) : ℝ)| /
          Real.sqrt ((normSq (crossv (cylAxis F c1) (cylAxis F c2)) : ℚ) : ℝ) <
          (c1.radiusTop : ℝ) + (c2.radiusTop : ℝ))) := by
  have hcSq : (0 : ℚ) ≤ normSq (crossv (cylAxis F c1) (cylAxis F c2)) :=
    normSq_nonneg _
  have hcond : sqrtLt (normSq (crossv (cylAxis F c1) (cylAxis F c2))) (1/1000) = true ↔
      Real.sqrt ((normSq (crossv (cylAxis F c1) (cylAxis F c2)) : ℚ) : ℝ) < 1/1000 := by
    rw [sqrtLt_iff _ _ hcSq]; norm_num
  constructor
  · intro h
    have hb := hcond.mpr h
    rw [checkCylinderCollision]
    simp only [hb, if_true]
    rw [sqrtLt_iff _ _ (normSq_nonneg _)]
    push_cast
    exact Iff.rfl
  · intro h
    have hb : sqrtLt (normSq (crossv (cylAxis F c1) (cylAxis F c2))) (1/1000) = false := by
      rw [← Bool.not_eq_true, hcond]; exact h
    have hpos : (0 : ℚ) < normSq (crossv (cylAxis F c1) (cylAxis F c2)) := by
      rcases lt_or_eq_of_le hcSq with hp | hp
      · exact hp
      · exfalso
        apply h
        rw [← hp, Rat.cast_zero, Real.sqrt_zero]
        norm_num
    rw [checkCylinderCollision]
    simp only [hb, Bool.false_eq_true, if_false]
    rw [divSqrtLt_iff _ _ _ hpos]
    push_cast
    exact Iff.rfl

/-- C5 (counterexample): the claim applies the `1e-3` threshold to the
cross product of the *unit direction vectors*.  For two short
perpendicular cylinders (`h = 0.01`), the direction cross product has
magnitude 1 (so the claim prescribes the line-distance test, which is
satisfied: distance 1/2 < 2), yet the code tests the cross product of the
height-scaled axes, magnitude `1e-4 < 1e-3`, falls into the parallel
branch and returns `false` because the centers are ~10 apart.  The
directions agree with real cosine/sine at the rotations used (0 and
−π/2), so `mathW` computes the genuine directions here. -/
theorem C5_cylinder_collision_counterexample :
    checkCylinderCollision mathW
        ⟨1, 1, 1/100, ⟨0, 0, 0⟩, ⟨0, 0, 0⟩, .concrete⟩
        ⟨1, 1, 1/100, ⟨0, 0, -1/2⟩, ⟨10, 0, 1/2⟩, .concrete⟩ = false
    ∧ eulerToDirection mathW ⟨0, 0, 0⟩ = ⟨0, 1, 0⟩
    ∧ eulerToDirection mathW ⟨0, 0, -1/2⟩ = ⟨1, 0, 0⟩
    ∧ ¬ Real.sqrt ((normSq (crossv ⟨0, 1, 0⟩ ⟨1, 0, 0⟩) : ℚ) : ℝ) < 1/1000
    ∧ |((dotv (vsub (cylStart mathW ⟨1, 1, 1/100, ⟨0, 0, -1/2⟩, ⟨10, 0, 1/2⟩, .concrete⟩)
            (cylStart mathW ⟨1, 1, 1/100, ⟨0, 0, 0⟩, ⟨0, 0, 0⟩, .concrete⟩))
          (crossv ⟨0, 1, 0⟩ ⟨1, 0, 0⟩) : ℚ) : ℝ)| /
        Real.sqrt ((normSq (crossv ⟨0, 1, 0⟩ ⟨1, 0, 0⟩) : ℚ) : ℝ) < 1 + 1 := by
  have hnormc : (normSq (crossv ⟨0, 1, 0⟩ ⟨1, 0, 0⟩) : ℚ) = 1 := by
    norm_num [normSq, crossv]
  refine ⟨?_, ?_, ?_, ?_, ?_⟩
  · rw [checkCylinderCollision]
    have hcross : sqrtLt (normSq (crossv
        (cylAxis mathW ⟨1, 1, 1/100, ⟨0, 0, 0⟩, ⟨0, 0, 0⟩, .concrete⟩)
        (cylAxis mathW ⟨1, 1, 1/100, ⟨0, 0, -1/2⟩, ⟨10, 0, 1/2⟩, .concrete⟩)))
        (1/1000) = true := by
      simp only [sqrtLt, decide_eq_true_eq]
      norm_num [cylAxis, cylStart, cylEnd, vadd, vsub, smul, crossv, normSq,
        eulerToDirection, mathW]
    simp only [hcross, if_true]
    simp only [sqrtLt, vsub, normSq, decide_eq_false_iff_not]
    norm_num
  · norm_num [eulerToDirection, mathW]
  · norm_num [eulerToDirection, mathW]
  · rw [hnormc, Rat.cast_one, Real.sqrt_one]
    norm_num
  · rw [hnormc, Rat.cast_one, Real.sqrt_one]
    have hdot : dotv (vsub (cylStart mathW ⟨1, 1, 1/100, ⟨0, 0, -1/2⟩, ⟨10, 0, 1/2⟩, .concrete⟩)
          (cylStart mathW ⟨1, 1, 1/100, ⟨0, 0, 0⟩, ⟨0, 0, 0⟩, .concrete⟩))
        (crossv ⟨0, 1, 0⟩ ⟨1, 0, 0⟩) = -1/2 := by
      norm_num [dotv, vsub, crossv, cylStart, smul, eulerToDirection, mathW]
    rw [hdot, div_one, abs_lt]
    constructor <;> push_cast <;> norm_num

/-- C5 (witness for the amended theorem): two unit-height perpendicular
cylinders whose axis lines pass within 1/2 of each other; the non-parallel
branch applies and reports a collision. -/
theorem C5_cylinder_collision_witness :
    ¬ Real.sqrt ((normSq (crossv
        (cylAxis mathW ⟨1, 1, 1, ⟨0, 0, 0⟩, ⟨0, 0, 0⟩, .concrete⟩)
        (cylAxis mathW ⟨1, 1, 1, ⟨0, 0, -1/2⟩, ⟨0, 0, 1/2⟩, .concrete⟩)) : ℚ) : ℝ) < 1/1000
    ∧ checkCylinderCollision mathW
        ⟨1, 1, 1, ⟨0, 0, 0⟩, ⟨0, 0, 0⟩, .concrete⟩
        ⟨1, 1, 1, ⟨0, 0, -1/2⟩, ⟨0, 0, 1/2⟩, .concrete⟩ = true := by
  have hcross : normSq (crossv
      (cylAxis mathW ⟨1, 1, 1, ⟨0, 0, 0⟩, ⟨0, 0, 0⟩, .concrete⟩)
      (cylAxis mathW ⟨1, 1, 1, ⟨0, 0, -1/2⟩, ⟨0, 0, 1/2⟩, .concrete⟩)) = 1 := by
    norm_num [cylAxis, cylStart, cylEnd, vadd, vsub, smul, crossv, normSq,
      eulerToDirection, mathW]
  have hnot : ¬ Real.sqrt ((normSq (crossv
      (cylAxis mathW ⟨1, 1, 1, ⟨0, 0, 0⟩, ⟨0, 0, 0⟩, .concrete⟩)
      (cylAxis mathW ⟨1, 1, 1, ⟨0, 0, -1/2⟩, ⟨0, 0, 1/2⟩, .concrete⟩)) : ℚ) : ℝ) < 1/1000 := by
    rw [hcross, Rat.cast_one, Real.sqrt_one]
    norm_num
  refine ⟨hnot, ?_⟩
  rw [(C5_cylinder_collision_amended mathW _ _).2 hnot]
  rw [hcross, Rat.cast_one, Real.sqrt_one]
  have hdot : dotv (vsub (cylStart mathW ⟨1, 1, 1, ⟨0, 0, -1/2⟩, ⟨0, 0, 1/2⟩, .concrete⟩)
      (cylStart mathW ⟨1, 1, 1, ⟨0, 0, 0⟩, ⟨0, 0, 0⟩, .concrete⟩))
      (crossv (cylAxis mathW ⟨1, 1, 1, ⟨0, 0, 0⟩, ⟨0, 0, 0⟩, .concrete⟩)
        (cylAxis mathW ⟨1, 1, 1, ⟨0, 0, -1/2⟩, ⟨0, 0, 1/2⟩, .concrete⟩)) = -1/2 := by
    norm_num [dotv, vsub, crossv, cylStart, cylEnd, cylAxis, vadd, smul,
      eulerToDirection, mathW]
  rw [hdot, div_one, abs_lt]
  constructor <;> push_cast <;> norm_num

/-- C6 (amended): for two cylinders with the same stored rotation (hence
the same axis direction) the axis cross product vanishes, the parallel
fallback applies, and a collision is reported exactly when the full
*center distance* is below `r1 + r2` — so two parallel cylinders that are
far apart along their shared axis are reported as NOT colliding even when
their perpendicular offset is below `r1 + r2`. -/
theorem C6_parallel_cylinders_amended (F : JsMathModel) (c1 c2 : Cyl)
    (hrot : c1.rotation = c2.rotation) :
    checkCylinderCollision F c1 c2 = true ↔
      Real.sqrt ((normSq (vsub c2.position c1.position) : ℚ) : ℝ) <
        (c1.radiusTop : ℝ) + (c2.radiusTop : ℝ) := by
  have hcross : crossv (cylAxis F c1) (cylAxis F c2) = ⟨0, 0, 0⟩ := by
    simp only [cylAxis, cylStart, cylEnd, vadd, vsub, smul, crossv, hrot]
    rw [Vec3.mk.injEq]
    refine ⟨by ring, by ring, by ring⟩
  have hb : sqrtLt (normSq (crossv (cylAxis F c1) (cylAxis F c2))) (1/1000) = true := by
    rw [hcross]
    simp only [sqrtLt, normSq, decide_eq_true_eq]
    norm_num
  rw [checkCylinderCollision]
  simp only [hb, if_true]
  rw [sqrtLt_iff _ _ (normSq_nonneg _)]
  push_cast
  exact Iff.rfl

/-- C6 (counterexample): two parallel cylinders (identical rotation, unit
direction `(0,1,0)`), radii 1+1, centers offset by `(1/2, 100, 0)`:
perpendicular offset 1/2 < 2 but axial offset 100.  The claim says the
engine reports a collision; the engine reports none (the parallel
fallback compares the full center distance `≈ 100` against 2). -/
theorem C6_parallel_cylinders_counterexample :
    checkCylinderCollision mathW
        ⟨1, 1, 2, ⟨0, 0, 0⟩, ⟨0, 0, 0⟩, .concrete⟩
        ⟨1, 1, 2, ⟨0, 0, 0⟩, ⟨1/2, 100, 0⟩, .concrete⟩ = false
    ∧ eulerToDirection mathW ⟨0, 0, 0⟩ = ⟨0, 1, 0⟩
    ∧ vsub (⟨1/2, 100, 0⟩ : Vec3) ⟨0, 0, 0⟩ = vadd (smul 100 ⟨0, 1, 0⟩) ⟨1/2, 0, 0⟩
    ∧ dotv ⟨1/2, 0, 0⟩ ⟨0, 1, 0⟩ = 0
    ∧ Real.sqrt ((normSq (⟨1/2, 0, 0⟩ : Vec3) : ℚ) : ℝ) < 1 + 1 := by
  refine ⟨?_, ?_, ?_, ?_, ?_⟩
  · rw [Bool.eq_false_iff]
    intro hTrue
    have hlt := (C6_parallel_cylinders_amended mathW
      ⟨1, 1, 2, ⟨0, 0, 0⟩, ⟨0, 0, 0⟩, .concrete⟩
      ⟨1, 1, 2, ⟨0, 0, 0⟩, ⟨1/2, 100, 0⟩, .concrete⟩ rfl).mp hTrue
    have hn : (normSq (vsub (⟨1/2, 100, 0⟩ : Vec3) ⟨0, 0, 0⟩) : ℚ) = 40001/4 := by
      norm_num [normSq, vsub]
    rw [hn] at hlt
    have h2 : ((2:ℝ)) ≤ Real.sqrt ((40001/4 : ℚ) : ℝ) := by
      rw [show ((40001/4 : ℚ) : ℝ) = (40001/4 : ℝ) by push_cast; ring]
      have h4 : (2:ℝ) = Real.sqrt 4 := by
        rw [show (4:ℝ) = 2^2 by norm_num, Real.sqrt_sq]; norm_num
      rw [h4]
      apply Real.sqrt_le_sqrt
      norm_num
    push_cast at hlt
    linarith
  · norm_num [eulerToDirection, mathW]
  · norm_num [vsub, vadd, smul]
  · norm_num [dotv]
  · have : ((normSq (⟨1/2, 0, 0⟩ : Vec3) : ℚ) : ℝ) = (1/2 : ℝ)^2 := by
      norm_num [normSq]
    rw [this, Real.sqrt_sq (by norm_num)]
    norm_num

/-- C6 (witness for the amended theorem): two parallel cylinders side by
side, center distance 1 < 2: the engine reports a collision. -/
theorem C6_parallel_cylinders_witness :
    (⟨1, 1, 2, ⟨0, 0, 0⟩, ⟨0, 0, 0⟩, .concrete⟩ : Cyl).rotation =
      (⟨1, 1, 2, ⟨0, 0, 0⟩, ⟨1, 0, 0⟩, .concrete⟩ : Cyl).rotation
    ∧ checkCylinderCollision mathW
        ⟨1, 1, 2, ⟨0, 0, 0⟩, ⟨0, 0, 0⟩, .concrete⟩
        ⟨1, 1, 2, ⟨0, 0, 0⟩, ⟨1, 0, 0⟩, .concrete⟩ = true := by
  refine ⟨rfl, ?_⟩
  rw [C6_parallel_cylinders_amended mathW
    ⟨1, 1, 2, ⟨0, 0, 0⟩, ⟨0, 0, 0⟩, .concrete⟩
    ⟨1, 1, 2, ⟨0, 0, 0⟩, ⟨1, 0, 0⟩, .concrete⟩ rfl]
  have hn : ((normSq (vsub (⟨1, 0, 0⟩ : Vec3) ⟨0, 0, 0⟩) : ℚ) : ℝ) = (1:ℝ)^2 := by
    norm_num [normSq, vsub]
  rw [hn, Real.sqrt_sq (by norm_num)]
  norm_num

/-! ### C7: cylinder–sphere collision -/

/-- `checkCylinderSphereCollision` written with the named intermediate
quantities (pure unfolding of the let-bindings). -/
theorem checkCylinderSphere_unfold (F : JsMathModel) (cyl : Cyl) (sph : Sph) :
    checkCylinderSphereCollision F cyl sph =
      if csClamped F cyl sph = 0 ∨ csClamped F cyl sph = 1 then
        if sqrtLe (csRadialSq F cyl sph) cyl.radiusTop then
          divSqrtLt (csAxialDot F cyl sph) (csAxisSq F cyl) sph.radius
        else
          decide (0 < sph.radius) &&
            ltMulSqrt (csRadialSq F cyl sph + cyl.radiusTop * cyl.radiusTop +
                csAxialDot F cyl sph * csAxialDot F cyl sph / csAxisSq F cyl -
                sph.radius * sph.radius)
              (2 * cyl.radiusTop) (csRadialSq F cyl sph)
      else sqrtLt (csDistSq F cyl sph) (cyl.radiusTop + sph.radius) := rfl

/-- The clamped parameter lies in `[0, 1]`. -/
theorem csClamped_mem (F : JsMathModel) (cyl : Cyl) (sph : Sph) :
    0 ≤ csClamped F cyl sph ∧ csClamped F cyl sph ≤ 1 := by
  unfold csClamped
  exact ⟨le_max_left _ _, max_le (by norm_num) (min_le_left _ _)⟩

/-- C7: `checkCylinderSphereCollision` projects the sphere center onto the
axis segment with the parameter clamped to `[0,1]`.  Interior projection:
collision iff distance to the axis point `< cylRadius + sphereRadius`.
Clamped to an endpoint: if the in-plane offset from the cap center is
within `radiusTop`, collision iff the axial offset magnitude
`< sphereRadius`; otherwise collision iff the distance to the cap rim,
`√((radialDist − radiusTop)² + axialOffset²)`, is `< sphereRadius`. -/
theorem C7_cylinder_sphere_collision (F : JsMathModel) (cyl : Cyl) (sph : Sph)
    (haxis : 0 < csAxisSq F cyl) :
    (0 < csClamped F cyl sph ∧ csClamped F cyl sph < 1 →
      (checkCylinderSphereCollision F cyl sph = true ↔
        Real.sqrt ((csDistSq F cyl sph : ℚ) : ℝ) <
          (cyl.radiusTop : ℝ) + (sph.radius : ℝ)))
    ∧ (csClamped F cyl sph = 0 ∨ csClamped F cyl sph = 1 →
      (Real.sqrt ((csRadialSq F cyl sph : ℚ) : ℝ) ≤ (cyl.radiusTop : ℝ) →
        (checkCylinderSphereCollision F cyl sph = true ↔
          |((csAxialDot F cyl sph : ℚ) : ℝ)| /
              Real.sqrt ((csAxisSq F cyl : ℚ) : ℝ) < (sph.radius : ℝ)))
      ∧ ((cyl.radiusTop : ℝ) < Real.sqrt ((csRadialSq F cyl sph : ℚ) : ℝ) →
        (checkCylinderSphereCollision F cyl sph = true ↔
          Real.sqrt ((Real.sqrt ((csRadialSq F cyl sph : ℚ) : ℝ) - (cyl.radiusTop : ℝ)) ^ 2 +
              (((csAxialDot F cyl sph : ℚ) : ℝ) /
                Real.sqrt ((csAxisSq F cyl : ℚ) : ℝ)) ^ 2) <
            (sph.radius : ℝ)))) := by
  have hradial : (0 : ℚ) ≤ csRadialSq F cyl sph := normSq_nonneg _
  have hcapiff : sqrtLe (csRadialSq F cyl sph) cyl.radiusTop = true ↔
      Real.sqrt ((csRadialSq F cyl sph : ℚ) : ℝ) ≤ (cyl.radiusTop : ℝ) :=
    sqrtLe_iff _ _ hradial
  constructor
  · rintro ⟨h0, h1⟩
    have hc : ¬ (csClamped F cyl sph = 0 ∨ csClamped F cyl sph = 1) := by
      rintro (h | h)
      · rw [h] at h0; exact lt_irrefl _ h0
      · rw [h] at h1; exact lt_irrefl _ h1
    rw [checkCylinderSphere_unfold, if_neg hc,
      sqrtLt_iff (csDistSq F cyl sph) _ (normSq_nonneg _)]
    push_cast
    try exact Iff.rfl
  · intro hc
    constructor
    · intro hin
      rw [checkCylinderSphere_unfold, if_pos hc, if_pos (hcapiff.mpr hin),
        divSqrtLt_iff _ _ _ haxis]
      try push_cast
      try exact Iff.rfl
    · intro hout
      have hnotin : ¬ sqrtLe (csRadialSq F cyl sph) cyl.radiusTop = true := by
        rw [hcapiff]; exact not_le.mpr hout
      rw [checkCylinderSphere_unfold, if_pos hc,
        if_neg hnotin, Bool.and_eq_true, decide_eq_true_eq,
        ltMulSqrt_iff _ _ _ hradial]
      -- abbreviations over ℝ
      set s := Real.sqrt ((csRadialSq F cyl sph : ℚ) : ℝ) with hsdef
      set L := Real.sqrt ((csAxisSq F cyl : ℚ) : ℝ) with hLdef
      have hsnn : 0 ≤ s := Real.sqrt_nonneg _
      have hs2 : s ^ 2 = ((csRadialSq F cyl sph : ℚ) : ℝ) :=
        Real.sq_sqrt (by exact_mod_cast hradial)
      have hL0 : (0 : ℝ) < L := Real.sqrt_pos.mpr (by exact_mod_cast haxis)
      have hL2 : L ^ 2 = ((csAxisSq F cyl : ℚ) : ℝ) :=
        Real.sq_sqrt (by positivity)
      have hE : (s - (cyl.radiusTop : ℝ)) ^ 2 +
          (((csAxialDot F cyl sph : ℚ) : ℝ) / L) ^ 2 =
          ((csRadialSq F cyl sph : ℚ) : ℝ) + (cyl.radiusTop : ℝ) ^ 2 +
            ((csAxialDot F cyl sph : ℚ) : ℝ) ^ 2 / ((csAxisSq F cyl : ℚ) : ℝ) -
            2 * (cyl.radiusTop : ℝ) * s := by
        rw [div_pow, hL2]
        nlinarith [hs2]
      have hEnn : (0 : ℝ) ≤ (s - (cyl.radiusTop : ℝ)) ^ 2 +
          (((csAxialDot F cyl sph : ℚ) : ℝ) / L) ^ 2 := by positivity
      constructor
      · rintro ⟨hR, hB⟩
        have hR' : (0 : ℝ) < (sph.radius : ℝ) := by exact_mod_cast hR
        rw [Real.sqrt_lt' hR']
        rw [hE]
        push_cast at hB
        rw [pow_two, pow_two, pow_two]
        linarith [hB]
      · intro h
        have hR' : (0 : ℝ) < (sph.radius : ℝ) :=
          lt_of_le_of_lt (Real.sqrt_nonneg _) h
        refine ⟨by exact_mod_cast hR', ?_⟩
        rw [Real.sqrt_lt' hR', hE] at h
        push_cast
        rw [pow_two, pow_two, pow_two] at h
        linarith [h]

/-- C7 (witness): unit-radius upright cylinder of height 2 at the origin
and a unit sphere beside its midsection: interior projection (`t = 1/2`)
and a reported collision. -/
theorem C7_cylinder_sphere_collision_witness :
    0 < csAxisSq mathW ⟨1, 1, 2, ⟨0, 0, 0⟩, ⟨0, 0, 0⟩, .concrete⟩
    ∧ (0 < csClamped mathW ⟨1, 1, 2, ⟨0, 0, 0⟩, ⟨0, 0, 0⟩, .concrete⟩
          ⟨1, ⟨1, 0, 0⟩, .concrete⟩
        ∧ csClamped mathW ⟨1, 1, 2, ⟨0, 0, 0⟩, ⟨0, 0, 0⟩, .concrete⟩
          ⟨1, ⟨1, 0, 0⟩, .concrete⟩ < 1)
    ∧ checkCylinderSphereCollision mathW ⟨1, 1, 2, ⟨0, 0, 0⟩, ⟨0, 0, 0⟩, .concrete⟩
        ⟨1, ⟨1, 0, 0⟩, .concrete⟩ = true := by
  have haxis : (0 : ℚ) < csAxisSq mathW ⟨1, 1, 2, ⟨0, 0, 0⟩, ⟨0, 0, 0⟩, .concrete⟩ := by
    norm_num [csAxisSq, cylAxis, cylStart, cylEnd, vadd, vsub, smul, dotv,
      eulerToDirection, mathW]
  have hcl : csClamped mathW ⟨1, 1, 2, ⟨0, 0, 0⟩, ⟨0, 0, 0⟩, .concrete⟩
      ⟨1, ⟨1, 0, 0⟩, .concrete⟩ = 1/2 := by
    norm_num [csClamped, csParam, csVec, csAxisSq, cylAxis, cylStart, cylEnd,
      vadd, vsub, smul, dotv, eulerToDirection, mathW, min_def, max_def]
  have hint : 0 < csClamped mathW ⟨1, 1, 2, ⟨0, 0, 0⟩, ⟨0, 0, 0⟩, .concrete⟩
      ⟨1, ⟨1, 0, 0⟩, .concrete⟩
      ∧ csClamped mathW ⟨1, 1, 2, ⟨0, 0, 0⟩, ⟨0, 0, 0⟩, .concrete⟩
      ⟨1, ⟨1, 0, 0⟩, .concrete⟩ < 1 := by
    rw [hcl]; norm_num
  refine ⟨haxis, hint, ?_⟩
  rw [(C7_cylinder_sphere_collision mathW _ _ haxis).1 hint]
  have hd : csDistSq mathW ⟨1, 1, 2, ⟨0, 0, 0⟩, ⟨0, 0, 0⟩, .concrete⟩
      ⟨1, ⟨1, 0, 0⟩, .concrete⟩ = 1 := by
    norm_num [csDistSq, csClosest, csClamped, csParam, csVec, csAxisSq, cylAxis,
      cylStart, cylEnd, vadd, vsub, smul, dotv, normSq, eulerToDirection, mathW,
      min_def, max_def]
  rw [hd, Rat.cast_one, Real.sqrt_one]
  norm_num

/-! ### Decimal rendering and parsing lemmas -/

/-- The ten digit characters have the expected code points. -/
theorem digitChar_toNat : ∀ d, d < 10 → (digitChar d).toNat = 48 + d := by decide

/-- The ten digit characters satisfy `isDigit`. -/
theorem digitChar_isDigit : ∀ d, d < 10 → (digitChar d).isDigit = true := by decide

/-- A digit character is not whitespace. -/
theorem isDigit_not_ws (c : Char) (h : c.isDigit = true) : isWsChar c = false := by
  rcases Bool.eq_false_or_eq_true (isWsChar c) with ht | hf
  · exfalso
    unfold isWsChar at ht
    simp only [Bool.or_eq_true, decide_eq_true_eq] at ht
    rcases ht with ((rfl | rfl) | rfl) | rfl <;> exact absurd h (by decide)
  · exact hf

/-- A digit character differs from any non-digit character. -/
theorem isDigit_ne (c r : Char) (h : c.isDigit = true) (hr : r.isDigit = false) :
    c ≠ r := by
  intro e
  rw [e, hr] at h
  exact Bool.false_ne_true h

/-- `natOfChars` with an arbitrary accumulator. -/
theorem natOfChars_from (a : ℕ) (l : JsStr) :
    l.foldl (fun a c => a * 10 + (c.toNat - 48)) a =
      a * 10 ^ l.length + natOfChars l := by
  induction l generalizing a with
  | nil => simp [natOfChars]
  | cons c l ih =>
    simp only [List.foldl_cons, List.length_cons, natOfChars]
    rw [ih, ih (0 * 10 + (c.toNat - 48))]
    ring

/-- `natOfChars` over an append. -/
theorem natOfChars_append (A B : JsStr) :
    natOfChars (A ++ B) = natOfChars A * 10 ^ B.length + natOfChars B := by
  unfold natOfChars
  rw [List.foldl_append]
  exact natOfChars_from _ _

/-- Specification of the fuel-driven digit rendering: non-empty, all
digits, and `natOfChars` recovers the value. -/
theorem natCharsAux_spec : ∀ fuel n, n < fuel →
    natCharsAux fuel n ≠ [] ∧ (∀ c ∈ natCharsAux fuel n, c.isDigit = true) ∧
      natOfChars (natCharsAux fuel n) = n := by
  intro fuel
  induction fuel with
  | zero => intro n h; exact absurd h (by omega)
  | succ fuel ih =>
    intro n h
    by_cases h10 : n < 10
    · refine ⟨by simp [natCharsAux, h10], ?_, ?_⟩
      · intro c hc
        simp [natCharsAux, h10] at hc
        rw [hc]
        exact digitChar_isDigit n h10
      · simp [natCharsAux, h10, natOfChars, digitChar_toNat n h10]
    · have hdiv : n / 10 < n := Nat.div_lt_self (by omega) (by omega)
      have hrec := ih (n / 10) (by omega)
      simp only [natCharsAux, if_neg h10]
      refine ⟨by simp [hrec.1], ?_, ?_⟩
      · intro c hc
        rcases List.mem_append.mp hc with hc | hc
        · exact hrec.2.1 c hc
        · simp at hc
          rw [hc]
          exact digitChar_isDigit _ (Nat.mod_lt n (by omega))
      · rw [natOfChars_append, hrec.2.2]
        simp [natOfChars, digitChar_toNat (n % 10) (Nat.mod_lt n (by omega))]
        omega

/-- `natChars` is non-empty. -/
theorem natChars_ne_nil (n : ℕ) : natChars n ≠ [] :=
  (natCharsAux_spec (n + 1) n (by omega)).1

/-- `natChars` consists of digit characters. -/
theorem natChars_digits (n : ℕ) : ∀ c ∈ natChars n, c.isDigit = true :=
  (natCharsAux_spec (n + 1) n (by omega)).2.1

/-- `natOfChars` is a left inverse of `natChars`. -/
theorem natOfChars_natChars (n : ℕ) : natOfChars (natChars n) = n :=
  (natCharsAux_spec (n + 1) n (by omega)).2.2

/-- `natChars` is injective. -/
theorem natChars_inj {a b : ℕ} (h : natChars a = natChars b) : a = b := by
  have := natOfChars_natChars a
  rw [h, natOfChars_natChars] at this
  omega

/-- Digit-count bound for the fuel-driven rendering. -/
theorem natCharsAux_length : ∀ fuel n k, n < fuel → n < 10 ^ (k + 1) →
    (natCharsAux fuel n).length ≤ k + 1 := by
  intro fuel
  induction fuel with
  | zero => intro n k h; exact absurd h (by omega)
  | succ fuel ih =>
    intro n k h hk
    by_cases h10 : n < 10
    · simp [natCharsAux, h10]
    · have hdiv : n / 10 < n := Nat.div_lt_self (by omega) (by omega)
      cases k with
      | zero => simp at hk; omega
      | succ k =>
        have hdivk : n / 10 < 10 ^ (k + 1) := by
          rw [Nat.div_lt_iff_lt_mul (by omega : 0 < 10)]
          calc n < 10 ^ (k + 1 + 1) := hk
          _ = 10 ^ (k + 1) * 10 := by rw [pow_succ]
        have := ih (n / 10) k (by omega) hdivk
        simp only [natCharsAux, if_neg h10, List.length_append, List.length_cons,
          List.length_nil]
        omega

/-- The rendering of `f < 10^6` has at most six digits. -/
theorem natChars_length_le (f : ℕ) (h : f < 1000000) : (natChars f).length ≤ 6 := by
  have : (1000000 : ℕ) = 10 ^ (5 + 1) := by norm_num
  exact natCharsAux_length (f + 1) f 5 (by omega) (by omega)

/-- `pad6` has length exactly six for values below `10^6`. -/
theorem pad6_length (f : ℕ) (h : f < 1000000) : (pad6 f).length = 6 := by
  unfold pad6
  rw [List.length_append, List.length_replicate]
  have := natChars_length_le f h
  omega

/-- `pad6` consists of digit characters. -/
theorem pad6_digits (f : ℕ) : ∀ c ∈ pad6 f, c.isDigit = true := by
  intro c hc
  unfold pad6 at hc
  rcases List.mem_append.mp hc with hc | hc
  · rw [List.eq_of_mem_replicate hc]
    decide
  · exact natChars_digits f c hc

/-- Leading zeros do not change the parsed value. -/
theorem natOfChars_replicate_zero (z : ℕ) (B : JsStr) :
    natOfChars (List.replicate z '0' ++ B) = natOfChars B := by
  induction z with
  | zero => simp
  | succ z ih =>
    rw [List.replicate_succ, List.cons_append]
    simpa [natOfChars] using ih

/-- `natOfChars` recovers the value from `pad6`. -/
theorem pad6_value (f : ℕ) : natOfChars (pad6 f) = f := by
  unfold pad6
  rw [natOfChars_replicate_zero]
  exact natOfChars_natChars f

/-- `takeWhile` passes over a prefix it fully satisfies. -/
theorem takeWhile_append_all {p : Char → Bool} (A B : JsStr)
    (h : ∀ c ∈ A, p c = true) :
    (A ++ B).takeWhile p = A ++ B.takeWhile p := by
  induction A with
  | nil => simp
  | cons c A ih =>
    rw [List.cons_append, List.takeWhile_cons, if_pos (h c (by simp)),
      List.cons_append, ih (fun d hd => h d (by simp [hd]))]

/-- `dropWhile` consumes a prefix it fully satisfies. -/
theorem dropWhile_append_all {p : Char → Bool} (A B : JsStr)
    (h : ∀ c ∈ A, p c = true) :
    (A ++ B).dropWhile p = B.dropWhile p := by
  induction A with
  | nil => simp
  | cons c A ih =>
    rw [List.cons_append, List.dropWhile_cons, if_pos (h c (by simp))]
    exact ih fun d hd => h d (by simp [hd])

/-- `takeWhile` keeps a list it fully satisfies. -/
theorem takeWhile_all {p : Char → Bool} (A : JsStr) (h : ∀ c ∈ A, p c = true) :
    A.takeWhile p = A := by
  have := takeWhile_append_all A [] h
  simpa using this

/-- `dropWhile` keeps a list whose head fails the test. -/
theorem dropWhile_head_neg {p : Char → Bool} (l : JsStr)
    (h : ∀ c, l.head? = some c → p c = false) : l.dropWhile p = l := by
  cases l with
  | nil => rfl
  | cons c cs => rw [List.dropWhile_cons, if_neg (by simp [h c rfl])]

/-- `parseBody` on `digits ++ '.' :: digits`. -/
theorem parseBody_spec (neg : Bool) (A B : JsStr) (hA : A ≠ [])
    (hAd : ∀ c ∈ A, c.isDigit = true) (hBd : ∀ c ∈ B, c.isDigit = true) :
    parseBody neg (A ++ '.' :: B) =
      some ((if neg then (-1 : ℚ) else 1) *
        ((natOfChars A : ℚ) + (natOfChars B : ℚ) / 10 ^ B.length)) := by
  unfold parseBody
  have hdot : ('.' : Char).isDigit = false := by decide
  simp only [takeWhile_append_all A ('.' :: B) hAd,
    dropWhile_append_all A ('.' :: B) hAd]
  simp [hdot, takeWhile_all B hBd, hA]

/-- The characters of `fixedChars` are digits or the decimal point. -/
theorem fixedChars_classes (m : ℕ) :
    ∀ c ∈ fixedChars m, c.isDigit = true ∨ c = '.' := by
  intro c hc
  unfold fixedChars at hc
  rcases List.mem_append.mp hc with hc | hc
  · exact Or.inl (natChars_digits _ c hc)
  · rcases List.mem_cons.mp hc with hc | hc
    · exact Or.inr hc
    · exact Or.inl (pad6_digits _ c hc)

/-- `parseBody` recovers the micro-unit value from `fixedChars`. -/
theorem parseBody_fixedChars (neg : Bool) (m : ℕ) :
    parseBody neg (fixedChars m) =
      some ((if neg then (-1 : ℚ) else 1) * ((m : ℚ) / 1000000)) := by
  unfold fixedChars
  rw [parseBody_spec neg _ _ (natChars_ne_nil _) (natChars_digits _) (pad6_digits _)]
  congr 1
  rw [natOfChars_natChars, pad6_value, pad6_length _ (Nat.mod_lt m (by omega))]
  congr 1
  have h2 : (1000000 : ℚ) * ((m / 1000000 : ℕ) : ℚ) + ((m % 1000000 : ℕ) : ℚ) =
      (m : ℚ) := by exact_mod_cast Nat.div_add_mod m 1000000
  rw [show ((10 : ℚ)) ^ (6 : ℕ) = 1000000 by norm_num]
  field_simp
  linarith [h2]

/-- `parseFloat` on a digit-headed token skips the sign handling. -/
theorem parseFloatQ_digit_head (c : Char) (cs : JsStr) (hcd : c.isDigit = true) :
    parseFloatQ (c :: cs) = parseBody false (c :: cs) := by
  simp only [parseFloatQ]
  rw [if_neg (isDigit_ne c '-' hcd (by decide)), if_neg (isDigit_ne c '+' hcd (by decide))]

/-- Round trip of the numeral codec: parsing the `toFixed(6)` rendering of
`x` yields exactly the 6-decimal rounding of `x`. -/
theorem parseFloatQ_toFixed6 (x : ℚ) : parseFloatQ (toFixed6 x) = some (round6 x) := by
  unfold toFixed6 round6 fix6
  by_cases hx : x < 0
  · simp only [if_pos hx]
    have hbody : parseFloatQ ('-' :: fixedChars (⌊-x * 1000000 + 1/2⌋).toNat) =
        parseBody true (fixedChars (⌊-x * 1000000 + 1/2⌋).toNat) := by
      simp only [parseFloatQ]
      simp
    rw [hbody, parseBody_fixedChars]
    have hnn : (0 : ℤ) ≤ ⌊-x * 1000000 + 1/2⌋ := by
      apply Int.floor_nonneg.mpr
      nlinarith
    have hM : (((⌊-x * 1000000 + 1/2⌋).toNat : ℕ) : ℚ) =
        ((⌊-x * 1000000 + 1/2⌋ : ℤ) : ℚ) := by
      exact_mod_cast Int.toNat_of_nonneg hnn
    rw [if_pos rfl, hM]
    push_cast
    ring_nf
  · simp only [if_neg hx]
    obtain ⟨c, cs, hc⟩ :=
      List.exists_cons_of_ne_nil (natChars_ne_nil ((⌊x * 1000000 + 1/2⌋).toNat / 1000000))
    have hcd : c.isDigit = true := by
      apply natChars_digits _ c
      rw [hc]
      exact List.mem_cons_self _ _
    have hshape : fixedChars (⌊x * 1000000 + 1/2⌋).toNat =
        c :: (cs ++ '.' :: pad6 ((⌊x * 1000000 + 1/2⌋).toNat % 1000000)) := by
      unfold fixedChars
      rw [hc]
      simp
    rw [hshape, parseFloatQ_digit_head c _ hcd, ← hshape, parseBody_fixedChars]
    have hnn : (0 : ℤ) ≤ ⌊x * 1000000 + 1/2⌋ := by
      apply Int.floor_nonneg.mpr
      nlinarith [not_lt.mp hx]
    have hM : (((⌊x * 1000000 + 1/2⌋).toNat : ℕ) : ℚ) =
        ((⌊x * 1000000 + 1/2⌋ : ℤ) : ℚ) := by
      exact_mod_cast Int.toNat_of_nonneg hnn
    rw [if_neg (by simp), hM]
    ring_nf

/-! ### Tokenization lemmas -/

/-- `natChars` contains no whitespace. -/
theorem natChars_not_ws (n : ℕ) : ∀ c ∈ natChars n, isWsChar c = false :=
  fun c hc => isDigit_not_ws c (natChars_digits n c hc)

/-- Character classes of `toFixed6` output. -/
theorem toFixed6_classes (x : ℚ) :
    ∀ c ∈ toFixed6 x, c.isDigit = true ∨ c = '.' ∨ c = '-' := by
  intro c hc
  unfold toFixed6 at hc
  by_cases hx : x < 0
  · rw [if_pos hx] at hc
    rcases List.mem_cons.mp hc with hc | hc
    · exact Or.inr (Or.inr hc)
    · rcases fixedChars_classes _ c hc with h | h
      · exact Or.inl h
      · exact Or.inr (Or.inl h)
  · rw [if_neg hx] at hc
    rcases fixedChars_classes _ c hc with h | h
    · exact Or.inl h
    · exact Or.inr (Or.inl h)

/-- `toFixed6` output contains no whitespace. -/
theorem toFixed6_not_ws (x : ℚ) : ∀ c ∈ toFixed6 x, isWsChar c = false := by
  intro c hc
  rcases toFixed6_classes x c hc with h | h | h
  · exact isDigit_not_ws c h
  · rw [h]; decide
  · rw [h]; decide

/-- `toFixed6` output is non-empty. -/
theorem toFixed6_ne_nil (x : ℚ) : toFixed6 x ≠ [] := by
  unfold toFixed6
  by_cases hx : x < 0
  · rw [if_pos hx]; exact List.cons_ne_nil _ _
  · rw [if_neg hx]
    unfold fixedChars
    intro h
    exact natChars_ne_nil _ (List.append_eq_nil.mp h).1

/-- Folding a whitespace-free token over `splitWsStep` prepends it to the
current token. -/
theorem foldr_splitWsStep_token (t : JsStr) (ht : ∀ c ∈ t, isWsChar c = false)
    (st : JsStr × List JsStr) :
    t.foldr splitWsStep st = (t ++ st.1, st.2) := by
  induction t with
  | nil => simp
  | cons c cs ih =>
    rw [List.foldr_cons, ih (fun d hd => ht d (by simp [hd]))]
    unfold splitWsStep
    rw [if_neg (by simp [ht c (by simp)])]
    simp

/-- Folding a space-joined token list over `splitWsStep` recovers the
head token and the tail tokens. -/
theorem foldr_splitWsStep_joinSp (t : JsStr) (ts : List JsStr)
    (h : ∀ u ∈ t :: ts, u ≠ [] ∧ ∀ c ∈ u, isWsChar c = false) :
    (joinSp (t :: ts)).foldr splitWsStep ([], []) = (t, ts) := by
  induction ts generalizing t with
  | nil =>
    show (joinSp [t]).foldr splitWsStep ([], []) = (t, [])
    rw [show joinSp [t] = t from rfl,
      foldr_splitWsStep_token t (h t (by simp)).2]
    simp
  | cons t' ts ih =>
    have hstep : joinSp (t :: t' :: ts) = t ++ ' ' :: joinSp (t' :: ts) := rfl
    have hsp : splitWsStep ' ' (t', ts) = ([], t' :: ts) := by
      unfold splitWsStep
      rw [if_pos (by decide)]
      simp [(h t' (by simp)).1]
    rw [hstep, List.foldr_append, List.foldr_cons,
      ih t' (fun u hu => h u (by simp at hu ⊢; tauto)), hsp,
      foldr_splitWsStep_token t (h t (by simp)).2]
    simp

/-- `split(/\s+/)` recovers the tokens of a space-joined token list. -/
theorem splitWs_joinSp (T : List JsStr)
    (h : ∀ u ∈ T, u ≠ [] ∧ ∀ c ∈ u, isWsChar c = false) :
    splitWsChars (joinSp T) = T := by
  cases T with
  | nil => rfl
  | cons t ts =>
    unfold splitWsChars
    rw [show (joinSp (t :: ts)).foldr splitWsStep ([], []) =
      (t, ts) from foldr_splitWsStep_joinSp t ts h]
    simp [(h t (by simp)).1]

/-- A single whitespace-free token splits to itself. -/
theorem splitWs_single (t : JsStr) (h1 : t ≠ []) (h2 : ∀ c ∈ t, isWsChar c = false) :
    splitWsChars t = [t] := by
  have := splitWs_joinSp [t] (by simpa using ⟨h1, h2⟩)
  simpa using this

/-! ### Trimming and line-splitting lemmas -/

/-- `trim` is the identity on a line whose two ends are not whitespace. -/
theorem trim_eq_of_ends (l : JsStr)
    (h1 : ∀ c, l.head? = some c → isWsChar c = false)
    (h2 : ∀ c, l.getLast? = some c → isWsChar c = false) : trimChars l = l := by
  unfold trimChars
  rw [dropWhile_head_neg l h1,
    dropWhile_head_neg l.reverse (fun c hc => h2 c (by rwa [← List.head?_reverse])),
    List.reverse_reverse]

/-- `trim` strips a single trailing space from a line whose own ends are
not whitespace. -/
theorem trim_append_space (A : JsStr) (hA : A ≠ [])
    (h1 : ∀ c, A.head? = some c → isWsChar c = false)
    (h2 : ∀ c, A.getLast? = some c → isWsChar c = false) :
    trimChars (A ++ [' ']) = A := by
  obtain ⟨a, A', rfl⟩ := List.exists_cons_of_ne_nil hA
  unfold trimChars
  have hhead : List.dropWhile isWsChar ((a :: A') ++ [' ']) = (a :: A') ++ [' '] := by
    rw [List.cons_append, List.dropWhile_cons, if_neg (by simp [h1 a rfl])]
  rw [hhead]
  have hrev : ((a :: A') ++ [' ']).reverse = ' ' :: (a :: A').reverse := by
    rw [List.reverse_append]
    simp
  rw [hrev, List.dropWhile_cons, if_pos (by decide),
    dropWhile_head_neg _ (fun c hc => h2 c (by rwa [← List.head?_reverse])),
    List.reverse_reverse]

/-- `splitNl` peels one newline-free line off the front. -/
theorem splitNl_append_cons (A rest : JsStr) (hA : ∀ c ∈ A, c ≠ '\n') :
    splitNl (A ++ '\n' :: rest) = A :: splitNl rest := by
  induction A with
  | nil => simp [splitNl]
  | cons c cs ih =>
    rw [List.cons_append]
    have hne : ¬(c = '\n') := hA c (by simp)
    simp only [splitNl, if_neg hne, ih fun d hd => hA d (by simp [hd])]

/-- `split('\n')` recovers the lines of a newline-terminated file, plus
the empty fragment after the final newline. -/
theorem splitNl_joinLines (L : List JsStr) (h : ∀ l ∈ L, ∀ c ∈ l, c ≠ '\n') :
    splitNl (joinLines L) = L ++ [[]] := by
  induction L with
  | nil => rfl
  | cons l L ih =>
    have hflat : joinLines (l :: L) = l ++ '\n' :: joinLines L := by
      unfold joinLines
      simp
    rw [hflat, splitNl_append_cons l _ (h l (by simp)),
      ih fun u hu => h u (by simp [hu])]
    rfl

/-! ### Shapes of the emitted lines -/

/-- Characters of a space-join come from a token or are the space. -/
theorem mem_joinSp (T : List JsStr) (c : Char) (hc : c ∈ joinSp T) :
    (∃ u ∈ T, c ∈ u) ∨ c = ' ' := by
  induction T with
  | nil => simp [joinSp] at hc
  | cons t ts ih =>
    cases ts with
    | nil =>
      exact Or.inl ⟨t, by simp, by simpa [joinSp] using hc⟩
    | cons t' ts' =>
      rw [show joinSp (t :: t' :: ts') = t ++ ' ' :: joinSp (t' :: ts') from rfl] at hc
      rcases List.mem_append.mp hc with h | h
      · exact Or.inl ⟨t, by simp, h⟩
      · rcases List.mem_cons.mp h with h | h
        · exact Or.inr h
        · rcases ih h with ⟨u, hu, hcu⟩ | h
          · exact Or.inl ⟨u, by simp [hu], hcu⟩
          · exact Or.inr h

/-- A space-join with a non-empty head token is non-empty. -/
theorem joinSp_ne_nil (t : JsStr) (ts : List JsStr) (ht : t ≠ []) :
    joinSp (t :: ts) ≠ [] := by
  cases ts with
  | nil => simpa [joinSp] using ht
  | cons t' ts' =>
    rw [show joinSp (t :: t' :: ts') = t ++ ' ' :: joinSp (t' :: ts') from rfl]
    simp

/-- Head of a space-join is the head of the first token. -/
theorem joinSp_head (t : JsStr) (ts : List JsStr) (ht : t ≠ []) :
    (joinSp (t :: ts)).head? = t.head? := by
  cases ts with
  | nil => rfl
  | cons t' ts' =>
    rw [show joinSp (t :: t' :: ts') = t ++ ' ' :: joinSp (t' :: ts') from rfl,
      List.head?_append_of_ne_nil t ht]

/-- A space-join of at least two tokens is non-empty. -/
theorem joinSp_cons_ne_nil (v : JsStr) (vs : List JsStr) (h : vs ≠ []) :
    joinSp (v :: vs) ≠ [] := by
  cases vs with
  | nil => exact absurd rfl h
  | cons w ws =>
    rw [show joinSp (v :: w :: ws) = v ++ ' ' :: joinSp (w :: ws) from rfl]
    simp

/-- Last character of a space-join is the last of the final token. -/
theorem joinSp_getLast (T : List JsStr) (t : JsStr) (ht : t ≠ []) :
    (joinSp (T ++ [t])).getLast? = t.getLast? := by
  induction T with
  | nil => rfl
  | cons u T' ih =>
    have hne : joinSp (T' ++ [t]) ≠ [] := by
      cases T' with
      | nil => simpa [joinSp] using ht
      | cons w ws => exact joinSp_cons_ne_nil w (ws ++ [t]) (by simp)
    have hshape : joinSp ((u :: T') ++ [t]) = u ++ ' ' :: joinSp (T' ++ [t]) := by
      cases T' <;> rfl
    rw [hshape, List.getLast?_append_cons]
    cases hJ : joinSp (T' ++ [t]) with
    | nil => exact absurd hJ hne
    | cons j js =>
      rw [List.getLast?_cons_cons, ← hJ, ih]

/-- The `rcc` body line is the space-join of its nine tokens. -/
theorem rccLine_eq_joinSp (F : JsMathModel) (idx : ℕ) (p : Cyl) :
    rccLine F idx p = joinSp [js "rcc", natChars idx,
      toFixed6 (p.position.x - 1/2 * p.height * (eulerToDirection F p.rotation).x),
      toFixed6 (p.position.y - 1/2 * p.height * (eulerToDirection F p.rotation).y),
      toFixed6 (p.position.z - 1/2 * p.height * (eulerToDirection F p.rotation).z),
      toFixed6 ((eulerToDirection F p.rotation).x * p.height),
      toFixed6 ((eulerToDirection F p.rotation).y * p.height),
      toFixed6 ((eulerToDirection F p.rotation).z * p.height),
      toFixed6 p.radiusTop] := by
  have h1 : js "rcc " = js "rcc" ++ [' '] := rfl
  simp only [rccLine, joinSp, h1, List.cons_append, List.nil_append,
    List.append_assoc, List.singleton_append]

/-- The `sph` body line is the space-join of its six tokens. -/
theorem sphLine_eq_joinSp (idx : ℕ) (p : Sph) :
    sphLine idx p = joinSp [js "sph", natChars idx,
      toFixed6 p.position.x, toFixed6 p.position.y, toFixed6 p.position.z,
      toFixed6 p.radius] := by
  have h1 : js "sph " = js "sph" ++ [' '] := rfl
  simp only [sphLine, joinSp, h1, List.cons_append, List.nil_append,
    List.append_assoc, List.singleton_append]

/-- Tokenization of an emitted `rcc` line. -/
theorem rccLine_tokens (F : JsMathModel) (idx : ℕ) (p : Cyl) :
    splitWsChars (rccLine F idx p) = [js "rcc", natChars idx,
      toFixed6 (p.position.x - 1/2 * p.height * (eulerToDirection F p.rotation).x),
      toFixed6 (p.position.y - 1/2 * p.height * (eulerToDirection F p.rotation).y),
      toFixed6 (p.position.z - 1/2 * p.height * (eulerToDirection F p.rotation).z),
      toFixed6 ((eulerToDirection F p.rotation).x * p.height),
      toFixed6 ((eulerToDirection F p.rotation).y * p.height),
      toFixed6 ((eulerToDirection F p.rotation).z * p.height),
      toFixed6 p.radiusTop] := by
  rw [rccLine_eq_joinSp]
  apply splitWs_joinSp
  intro u hu
  simp only [List.mem_cons, List.not_mem_nil, or_false] at hu
  rcases hu with rfl | rfl | rfl | rfl | rfl | rfl | rfl | rfl | rfl
  · exact ⟨by decide, by decide⟩
  · exact ⟨natChars_ne_nil idx, natChars_not_ws idx⟩
  all_goals exact ⟨toFixed6_ne_nil _, toFixed6_not_ws _⟩

/-- Tokenization of an emitted `sph` line. -/
theorem sphLine_tokens (idx : ℕ) (p : Sph) :
    splitWsChars (sphLine idx p) = [js "sph", natChars idx,
      toFixed6 p.position.x, toFixed6 p.position.y, toFixed6 p.position.z,
      toFixed6 p.radius] := by
  rw [sphLine_eq_joinSp]
  apply splitWs_joinSp
  intro u hu
  simp only [List.mem_cons, List.not_mem_nil, or_false] at hu
  rcases hu with rfl | rfl | rfl | rfl | rfl | rfl
  · exact ⟨by decide, by decide⟩
  · exact ⟨natChars_ne_nil idx, natChars_not_ws idx⟩
  all_goals exact ⟨toFixed6_ne_nil _, toFixed6_not_ws _⟩

/-- The last character of a `toFixed6` numeral is a digit. -/
theorem toFixed6_getLast_digit (x : ℚ) (c : Char)
    (h : (toFixed6 x).getLast? = some c) : c.isDigit = true := by
  have hpadne : ∀ m : ℕ, pad6 m ≠ [] := by
    intro m hm
    exact natChars_ne_nil m (List.append_eq_nil.mp hm).2
  have hfix : ∀ m : ℕ, (fixedChars m).getLast? = some c → c.isDigit = true := by
    intro m hm
    unfold fixedChars at hm
    rw [List.getLast?_append_cons] at hm
    have : (pad6 (m % 1000000)).getLast? = some c := by
      have h2 := List.getLast?_append_of_ne_nil ['.'] (hpadne (m % 1000000))
      rw [show ('.' :: pad6 (m % 1000000)) = ['.'] ++ pad6 (m % 1000000) from rfl,
        h2] at hm
      exact hm
    exact pad6_digits _ c (List.mem_of_mem_getLast? this)
  unfold toFixed6 at h
  by_cases hx : x < 0
  · rw [if_pos hx] at h
    rw [show ('-' :: fixedChars (⌊-x * 1000000 + 1/2⌋).toNat) =
      ['-'] ++ fixedChars (⌊-x * 1000000 + 1/2⌋).toNat from rfl,
      List.getLast?_append_of_ne_nil _ (by
        unfold fixedChars
        intro hm
        exact natChars_ne_nil _ (List.append_eq_nil.mp hm).1)] at h
    exact hfix _ h
  · rw [if_neg hx] at h
    exact hfix _ h

/-- Trim is the identity on a space-join bracketed by non-whitespace. -/
theorem trim_joinSp (t0 : JsStr) (T : List JsStr) (tn : JsStr) (h0n : t0 ≠ [])
    (h0 : ∀ c, t0.head? = some c → isWsChar c = false) (hn : tn ≠ [])
    (hnd : ∀ c, tn.getLast? = some c → isWsChar c = false) :
    trimChars (joinSp (t0 :: (T ++ [tn]))) = joinSp (t0 :: (T ++ [tn])) := by
  apply trim_eq_of_ends
  · intro c hc
    rw [joinSp_head _ _ h0n] at hc
    exact h0 c hc
  · intro c hc
    rw [show t0 :: (T ++ [tn]) = (t0 :: T) ++ [tn] from rfl,
      joinSp_getLast _ _ hn] at hc
    exact hnd c hc

/-- The head of the `rcc` keyword is not whitespace. -/
theorem rcc_head_not_ws : ∀ c, (js "rcc").head? = some c → isWsChar c = false := by
  intro c hc
  rw [show (js "rcc").head? = some 'r' from rfl] at hc
  obtain rfl : 'r' = c := Option.some.inj hc
  decide

/-- The head of the `sph` keyword is not whitespace. -/
theorem sph_head_not_ws : ∀ c, (js "sph").head? = some c → isWsChar c = false := by
  intro c hc
  rw [show (js "sph").head? = some 's' from rfl] at hc
  obtain rfl : 's' = c := Option.some.inj hc
  decide

/-- An emitted `rcc` line is already trimmed. -/
theorem rccLine_trim (F : JsMathModel) (idx : ℕ) (p : Cyl) :
    trimChars (rccLine F idx p) = rccLine F idx p := by
  rw [rccLine_eq_joinSp]
  exact trim_joinSp (js "rcc")
    [natChars idx,
      toFixed6 (p.position.x - 1/2 * p.height * (eulerToDirection F p.rotation).x),
      toFixed6 (p.position.y - 1/2 * p.height * (eulerToDirection F p.rotation).y),
      toFixed6 (p.position.z - 1/2 * p.height * (eulerToDirection F p.rotation).z),
      toFixed6 ((eulerToDirection F p.rotation).x * p.height),
      toFixed6 ((eulerToDirection F p.rotation).y * p.height),
      toFixed6 ((eulerToDirection F p.rotation).z * p.height)]
    (toFixed6 p.radiusTop) (by decide) rcc_head_not_ws (toFixed6_ne_nil _)
    (fun c hc => isDigit_not_ws c (toFixed6_getLast_digit _ c hc))

/-- An emitted `sph` line is already trimmed. -/
theorem sphLine_trim (idx : ℕ) (p : Sph) :
    trimChars (sphLine idx p) = sphLine idx p := by
  rw [sphLine_eq_joinSp]
  exact trim_joinSp (js "sph")
    [natChars idx, toFixed6 p.position.x, toFixed6 p.position.y,
      toFixed6 p.position.z]
    (toFixed6 p.radius) (by decide) sph_head_not_ws (toFixed6_ne_nil _)
    (fun c hc => isDigit_not_ws c (toFixed6_getLast_digit _ c hc))

/-- A list starts with any of its prefixes. -/
theorem startsWithJs_self_append (p rest : JsStr) :
    startsWithJs (p ++ rest) p = true := by
  induction p with
  | nil => simp [startsWithJs]
  | cons c ps ih => simp [startsWithJs, ih]

/-- An emitted `rcc` line starts with `rcc`. -/
theorem rccLine_startsWith (F : JsMathModel) (idx : ℕ) (p : Cyl) :
    startsWithJs (rccLine F idx p) (js "rcc") = true := by
  rw [rccLine_eq_joinSp,
    show joinSp (js "rcc" :: [natChars idx,
      toFixed6 (p.position.x - 1/2 * p.height * (eulerToDirection F p.rotation).x),
      toFixed6 (p.position.y - 1/2 * p.height * (eulerToDirection F p.rotation).y),
      toFixed6 (p.position.z - 1/2 * p.height * (eulerToDirection F p.rotation).z),
      toFixed6 ((eulerToDirection F p.rotation).x * p.height),
      toFixed6 ((eulerToDirection F p.rotation).y * p.height),
      toFixed6 ((eulerToDirection F p.rotation).z * p.height),
      toFixed6 p.radiusTop]) = js "rcc" ++ ' ' :: joinSp [natChars idx,
      toFixed6 (p.position.x - 1/2 * p.height * (eulerToDirection F p.rotation).x),
      toFixed6 (p.position.y - 1/2 * p.height * (eulerToDirection F p.rotation).y),
      toFixed6 (p.position.z - 1/2 * p.height * (eulerToDirection F p.rotation).z),
      toFixed6 ((eulerToDirection F p.rotation).x * p.height),
      toFixed6 ((eulerToDirection F p.rotation).y * p.height),
      toFixed6 ((eulerToDirection F p.rotation).z * p.height),
      toFixed6 p.radiusTop] from rfl]
  exact startsWithJs_self_append _ _

/-- `startsWith` fails when the head characters differ. -/
theorem startsWith_cons_ne {c p : Char} (l ps : JsStr) (h : c ≠ p) :
    startsWithJs (c :: l) (p :: ps) = false := by
  simp [startsWithJs, h]

/-- An emitted `sph` line does not start with `rcc`. -/
theorem sphLine_not_rcc (idx : ℕ) (p : Sph) :
    startsWithJs (sphLine idx p) (js "rcc") = false := by
  show startsWithJs ('s' :: _) ('r' :: _) = false
  exact startsWith_cons_ne _ _ (by decide)

/-- An emitted `sph` line starts with `sph`. -/
theorem sphLine_startsWith (idx : ℕ) (p : Sph) :
    startsWithJs (sphLine idx p) (js "sph") = true := by
  rw [sphLine_eq_joinSp,
    show joinSp (js "sph" :: [natChars idx, toFixed6 p.position.x,
      toFixed6 p.position.y, toFixed6 p.position.z, toFixed6 p.radius]) =
      js "sph" ++ ' ' :: joinSp [natChars idx, toFixed6 p.position.x,
      toFixed6 p.position.y, toFixed6 p.position.z, toFixed6 p.radius] from rfl]
  exact startsWithJs_self_append _ _

/-- A line whose first character is neither digit nor whitespace is not
an all-numeric line. -/
theorem isNumericLine_cons_false (c : Char) (l : JsStr) (hd : c.isDigit = false)
    (hw : isWsChar c = false) : isNumericLine (c :: l) = false := by
  simp [isNumericLine, hd, hw]

/-- A space-join of rendered numbers passes the material-line test. -/
theorem isNumericLine_joinSp (codes : List ℕ) (h : codes ≠ []) :
    isNumericLine (joinSp (codes.map natChars)) = true := by
  obtain ⟨c0, cr, rfl⟩ := List.exists_cons_of_ne_nil h
  unfold isNumericLine
  rw [Bool.and_eq_true]
  constructor
  · cases hJ : joinSp ((c0 :: cr).map natChars) with
    | nil =>
      exact absurd hJ (joinSp_ne_nil _ _ (natChars_ne_nil c0))
    | cons a l => rfl
  · rw [List.all_eq_true]
    intro c hc
    rcases mem_joinSp _ c hc with ⟨u, hu, hcu⟩ | rfl
    · rcases List.mem_map.mp hu with ⟨k, _, rfl⟩
      simp [natChars_digits k c hcu]
    · decide

/-- `parseFloat` with default recovers the rounded value of `toFixed(6)`. -/
theorem parseFloatD_toFixed6 (x : ℚ) : parseFloatD (toFixed6 x) = round6 x := by
  unfold parseFloatD
  rw [parseFloatQ_toFixed6]
  rfl

/-- A line recognized by none of the three branches leaves the state
unchanged. -/
theorem processLine_skip (F : JsMathModel) (st : ScanState) (raw : JsStr)
    (h1 : startsWithJs (trimChars raw) (js "rcc") = false)
    (h2 : startsWithJs (trimChars raw) (js "sph") = false)
    (h3 : isNumericLine (trimChars raw) = false) :
    processLine F st raw = st := by
  unfold processLine
  simp [h1, h2, h3]

/-- The last character of a `zn` line is a digit of its index. -/
theorem znLine_getLast (idx : ℕ) : (znLine idx).getLast? = (natChars idx).getLast? := by
  unfold znLine
  rw [List.getLast?_append_of_ne_nil _ (by
      simp [List.append_eq_nil, natChars_ne_nil idx])]

/-- A `zn` line is already trimmed. -/
theorem znLine_trim (idx : ℕ) : trimChars (znLine idx) = znLine idx := by
  apply trim_eq_of_ends
  · intro c hc
    rw [show (znLine idx).head? = some 'z' from rfl] at hc
    obtain rfl : 'z' = c := Option.some.inj hc
    decide
  · intro c hc
    rw [znLine_getLast] at hc
    have hcm := List.mem_of_mem_getLast? hc
    exact isDigit_not_ws c (natChars_digits idx c hcm)

/-- A `zn` line does not start with `rcc`. -/
theorem znLine_not_rcc (idx : ℕ) : startsWithJs (znLine idx) (js "rcc") = false := by
  show startsWithJs ('z' :: _) ('r' :: _) = false
  exact startsWith_cons_ne _ _ (by decide)

/-- A `zn` line does not start with `sph`. -/
theorem znLine_not_sph (idx : ℕ) : startsWithJs (znLine idx) (js "sph") = false := by
  show startsWithJs ('z' :: _) ('s' :: _) = false
  exact startsWith_cons_ne _ _ (by decide)

/-- A `zn` line is not an all-numeric line. -/
theorem znLine_not_numeric (idx : ℕ) : isNumericLine (znLine idx) = false := by
  show isNumericLine ('z' :: _) = false
  exact isNumericLine_cons_false 'z' _ (by decide) (by decide)

/-- A `zn` line leaves the scan state unchanged. -/
theorem processLine_zn (F : JsMathModel) (st : ScanState) (idx : ℕ) :
    processLine F st (znLine idx) = st :=
  processLine_skip F st _ (by rw [znLine_trim]; exact znLine_not_rcc idx)
    (by rw [znLine_trim]; exact znLine_not_sph idx)
    (by rw [znLine_trim]; exact znLine_not_numeric idx)

/-- Scanning an emitted `rcc` line appends the re-imported cylinder under
the next sequential identifier (the file's own index is ignored). -/
theorem processLine_rcc (F : JsMathModel) (st : ScanState) (idx : ℕ) (p : Cyl) :
    processLine F st (rccLine F idx p) =
      { st with
        cyls := st.cyls ++ [(cylName st.cylIndex, reimportCyl F p)],
        cylIndex := st.cylIndex + 1,
        objectOrder := st.objectOrder ++ [(.cylinder, cylName st.cylIndex)] } := by
  unfold processLine
  rw [rccLine_trim]
  simp only [rccLine_startsWith, if_true, rccLine_tokens, List.length_cons,
    List.length_nil, List.getD_cons_succ, List.getD_cons_zero,
    parseFloatD_toFixed6]
  norm_num
  exact ⟨⟨rfl, rfl⟩, rfl⟩

/-- Scanning an emitted `sph` line appends the re-imported sphere under
the next sequential identifier. -/
theorem processLine_sph (F : JsMathModel) (st : ScanState) (idx : ℕ) (p : Sph) :
    processLine F st (sphLine idx p) =
      { st with
        sphs := st.sphs ++ [(sphName st.sphIndex, reimportSph p)],
        sphIndex := st.sphIndex + 1,
        objectOrder := st.objectOrder ++ [(.sphere, sphName st.sphIndex)] } := by
  unfold processLine
  rw [sphLine_trim]
  simp only [sphLine_not_rcc, Bool.false_eq_true, if_false, sphLine_startsWith,
    if_true, sphLine_tokens, List.length_cons, List.length_nil,
    List.getD_cons_succ, List.getD_cons_zero, parseFloatD_toFixed6]
  norm_num
  exact ⟨⟨rfl, rfl⟩, rfl⟩

/-- Scanning a line that trims to a rendered code list overwrites
`materialList` with those codes. -/
theorem processLine_mats (F : JsMathModel) (st : ScanState) (raw : JsStr)
    (codes : List ℕ) (hne : codes ≠ [])
    (h : trimChars raw = joinSp (codes.map natChars)) :
    processLine F st raw = { st with materialList := codes } := by
  obtain ⟨c0, cr, rfl⟩ := List.exists_cons_of_ne_nil hne
  obtain ⟨a, l, hal⟩ : ∃ a l, joinSp (((c0 :: cr)).map natChars) = a :: l := by
    cases hJ : joinSp (((c0 :: cr)).map natChars) with
    | nil => exact absurd hJ (joinSp_ne_nil _ _ (natChars_ne_nil c0))
    | cons a l => exact ⟨a, l, rfl⟩
  have hadig : a.isDigit = true := by
    have hh : (joinSp (((c0 :: cr)).map natChars)).head? = (natChars c0).head? :=
      joinSp_head _ _ (natChars_ne_nil c0)
    rw [hal] at hh
    exact natChars_digits c0 a (List.mem_of_mem_head? hh.symm)
  have h1 : startsWithJs (trimChars raw) (js "rcc") = false := by
    rw [h, hal]
    show startsWithJs (a :: l) ('r' :: _) = false
    exact startsWith_cons_ne _ _ (isDigit_ne a 'r' hadig (by decide))
  have h2 : startsWithJs (trimChars raw) (js "sph") = false := by
    rw [h, hal]
    show startsWithJs (a :: l) ('s' :: _) = false
    exact startsWith_cons_ne _ _ (isDigit_ne a 's' hadig (by decide))
  have h3 : isNumericLine (trimChars raw) = true := by
    rw [h]
    exact isNumericLine_joinSp _ (by simp)
  have h4 : splitWsChars (trimChars raw) = (c0 :: cr).map natChars := by
    rw [h]
    apply splitWs_joinSp
    intro u hu
    rcases List.mem_map.mp hu with ⟨k, _, rfl⟩
    exact ⟨natChars_ne_nil k, natChars_not_ws k⟩
  unfold processLine
  simp only [h1, h2, h3, h4, Bool.false_eq_true, if_false, if_true]
  rw [List.map_map,
    show natOfChars ∘ natChars = id from funext natOfChars_natChars,
    List.map_id]

/-! ### Export structure -/

/-- The material loop emits the space-join of the codes plus one trailing
space. -/
theorem exportMats_eq (codes : List ℕ) (h : codes ≠ []) :
    exportMats codes = joinSp (codes.map natChars) ++ [' '] := by
  induction codes with
  | nil => exact absurd rfl h
  | cons c rest ih =>
    cases rest with
    | nil => rfl
    | cons c' rest' =>
      rw [show exportMats (c :: c' :: rest') =
        natChars c ++ ' ' :: exportMats (c' :: rest') from rfl,
        ih (by simp),
        show joinSp ((c :: c' :: rest').map natChars) =
          natChars c ++ ' ' :: joinSp ((c' :: rest').map natChars) from rfl]
      simp

/-- Trimming the emitted material line yields the space-join of the codes. -/
theorem trim_exportMats (codes : List ℕ) (h : codes ≠ []) :
    trimChars (exportMats codes) = joinSp (codes.map natChars) := by
  obtain ⟨c0, cr, rfl⟩ := List.exists_cons_of_ne_nil h
  rw [exportMats_eq _ h]
  apply trim_append_space
  · exact joinSp_ne_nil _ _ (natChars_ne_nil c0)
  · intro c hc
    rw [show (c0 :: cr).map natChars = natChars c0 :: cr.map natChars from rfl,
      joinSp_head _ _ (natChars_ne_nil c0)] at hc
    exact isDigit_not_ws c (natChars_digits c0 c (List.mem_of_mem_head? hc))
  · intro c hc
    rcases (cr.map natChars).eq_nil_or_concat' with hnil | ⟨L, b, hLb⟩
    · rw [show (c0 :: cr).map natChars = natChars c0 :: cr.map natChars from rfl,
        hnil] at hc
      have : (joinSp [natChars c0]).getLast? = (natChars c0).getLast? := rfl
      rw [this] at hc
      exact isDigit_not_ws c (natChars_digits c0 c (List.mem_of_mem_getLast? hc))
    · have hb : ∃ k, b = natChars k := by
        have : b ∈ cr.map natChars := by
          rw [hLb]
          simp
        rcases List.mem_map.mp this with ⟨k, _, rfl⟩
        exact ⟨k, rfl⟩
      obtain ⟨k, rfl⟩ := hb
      rw [show (c0 :: cr).map natChars = natChars c0 :: cr.map natChars from rfl,
        hLb, show natChars c0 :: (L ++ [natChars k]) =
          (natChars c0 :: L) ++ [natChars k] from rfl,
        joinSp_getLast _ _ (natChars_ne_nil k)] at hc
      exact isDigit_not_ws c (natChars_digits k c (List.mem_of_mem_getLast? hc))

/-- `joinLines` unfolding for a head line. -/
theorem joinLines_cons (x : JsStr) (L : List JsStr) :
    joinLines (x :: L) = x ++ '\n' :: joinLines L := by
  simp [joinLines]

/-- The cylinder body loop in joined-lines form. -/
theorem exportBodyCyl_eq (F : JsMathModel) :
    ∀ (l : List (JsStr × Cyl)) (i : ℕ),
    exportBodyCyl F i l = joinLines ((List.enumFrom i l).map fun e => rccLine F e.1 e.2.2) := by
  intro l
  induction l with
  | nil => intro i; rfl
  | cons e rest ih =>
    intro i
    rw [show exportBodyCyl F i (e :: rest) =
      rccLine F i e.2 ++ '\n' :: exportBodyCyl F (i + 1) rest from rfl, ih (i + 1)]
    simp [joinLines]

/-- The sphere body loop in joined-lines form. -/
theorem exportBodySph_eq :
    ∀ (l : List (JsStr × Sph)) (i : ℕ),
    exportBodySph i l = joinLines ((List.enumFrom i l).map fun e => sphLine e.1 e.2.2) := by
  intro l
  induction l with
  | nil => intro i; rfl
  | cons e rest ih =>
    intro i
    rw [show exportBodySph i (e :: rest) =
      sphLine i e.2 ++ '\n' :: exportBodySph (i + 1) rest from rfl, ih (i + 1)]
    simp [joinLines]

/-- The zone loop in joined-lines form. -/
theorem exportZones_eq :
    ∀ (k i : ℕ),
    exportZones i k = joinLines ((List.range k).map fun j => znLine (i + j)) := by
  intro k
  induction k with
  | zero => intro i; rfl
  | succ k ih =>
    intro i
    rw [show exportZones i (k + 1) = znLine i ++ '\n' :: exportZones (i + 1) k from rfl,
      ih (i + 1), List.range_succ_eq_map, List.map_cons, List.map_map,
      joinLines_cons]
    have harith : ((fun j => znLine (i + j)) ∘ Nat.succ) = fun j => znLine (i + 1 + j) := by
      funext j
      have : i + Nat.succ j = i + 1 + j := by omega
      simp [Function.comp, this]
    rw [harith]
    norm_num

/-- `joinLines` distributes over append. -/
theorem joinLines_append (L1 L2 : List JsStr) :
    joinLines (L1 ++ L2) = joinLines L1 ++ joinLines L2 := by
  simp [joinLines]

/-- `handleExport` emits exactly the structured line list: bodies
(cylinders first, shared 1-based index), `end body`, one zone line per
primitive, `end zone`, the material line, and the sentinel footer. -/
theorem handleExport_eq_joinLines (F : JsMathModel) (cyls : List (JsStr × Cyl))
    (sphs : List (JsStr × Sph)) :
    handleExport F cyls sphs = joinLines (exportLines F cyls sphs) := by
  unfold handleExport exportLines
  rw [exportBodyCyl_eq, exportBodySph_eq, exportZones_eq]
  have hz : ((List.range (cyls.length + sphs.length)).map fun j => znLine (1 + j)) =
      (List.range (cyls.length + sphs.length)).map fun k => znLine (k + 1) := by
    apply List.map_congr_left
    intro j _
    have : 1 + j = j + 1 := by omega
    rw [this]
  rw [hz]
  simp [joinLines_append, joinLines, List.append_assoc]

/-! ### Scanning the exported lines -/

/-- Scanning the emitted cylinder body lines appends all re-imported
cylinders, renumbered from the current `cylIndex`. -/
theorem scan_cylBody (F : JsMathModel) :
    ∀ (l : List (JsStr × Cyl)) (i : ℕ) (st : ScanState),
    List.foldl (processLine F) st ((List.enumFrom i l).map fun e => rccLine F e.1 e.2.2) =
      { st with
        cyls := st.cyls ++
          (List.enumFrom st.cylIndex l).map fun e => (cylName e.1, reimportCyl F e.2.2),
        cylIndex := st.cylIndex + l.length,
        objectOrder := st.objectOrder ++
          (List.enumFrom st.cylIndex l).map fun e => (ObjType.cylinder, cylName e.1) } := by
  intro l
  induction l with
  | nil => intro i st; simp
  | cons e rest ih =>
    intro i st
    rw [List.enumFrom_cons, List.map_cons, List.foldl_cons, processLine_rcc,
      ih (i + 1)]
    simp [List.enumFrom_cons, List.append_assoc]
    omega

/-- Scanning the emitted sphere body lines appends all re-imported
spheres, renumbered from the current `sphIndex`. -/
theorem scan_sphBody (F : JsMathModel) :
    ∀ (l : List (JsStr × Sph)) (i : ℕ) (st : ScanState),
    List.foldl (processLine F) st ((List.enumFrom i l).map fun e => sphLine e.1 e.2.2) =
      { st with
        sphs := st.sphs ++
          (List.enumFrom st.sphIndex l).map fun e => (sphName e.1, reimportSph e.2.2),
        sphIndex := st.sphIndex + l.length,
        objectOrder := st.objectOrder ++
          (List.enumFrom st.sphIndex l).map fun e => (ObjType.sphere, sphName e.1) } := by
  intro l
  induction l with
  | nil => intro i st; simp
  | cons e rest ih =>
    intro i st
    rw [List.enumFrom_cons, List.map_cons, List.foldl_cons, processLine_sph,
      ih (i + 1)]
    simp [List.enumFrom_cons, List.append_assoc]
    omega

/-- Scanning any block of `zn` lines leaves the state unchanged. -/
theorem scan_znLines (F : JsMathModel) :
    ∀ (ks : List ℕ) (st : ScanState),
    List.foldl (processLine F) st (ks.map fun k => znLine (k + 1)) = st := by
  intro ks
  induction ks with
  | nil => intro st; rfl
  | cons k rest ih =>
    intro st
    rw [List.map_cons, List.foldl_cons, processLine_zn, ih]

/-- `end body` is skipped. -/
theorem processLine_endBody (F : JsMathModel) (st : ScanState) :
    processLine F st (js "end body") = st :=
  processLine_skip F st _ (by decide) (by decide) (by decide)

/-- `end zone` is skipped. -/
theorem processLine_endZone (F : JsMathModel) (st : ScanState) :
    processLine F st (js "end zone") = st :=
  processLine_skip F st _ (by decide) (by decide) (by decide)

/-- The sentinel footer is skipped. -/
theorem processLine_footer (F : JsMathModel) (st : ScanState) :
    processLine F st (js "oesnt worend geom") = st :=
  processLine_skip F st _ (by decide) (by decide) (by decide)

/-- An empty line is skipped. -/
theorem processLine_empty (F : JsMathModel) (st : ScanState) :
    processLine F st [] = st :=
  processLine_skip F st _ (by decide) (by decide) (by decide)

/-- Digits are not newlines. -/
theorem ne_nl_of_digit (c : Char) (h : c.isDigit = true) : c ≠ '\n' :=
  isDigit_ne c '\n' h (by decide)

/-- `rcc` body lines contain no newline. -/
theorem rccLine_no_nl (F : JsMathModel) (idx : ℕ) (p : Cyl) :
    ∀ c ∈ rccLine F idx p, c ≠ '\n' := by
  intro c hc
  rw [rccLine_eq_joinSp] at hc
  rcases mem_joinSp _ c hc with ⟨u, hu, hcu⟩ | rfl
  · simp only [List.mem_cons, List.not_mem_nil, or_false] at hu
    rcases hu with rfl | rfl | rfl | rfl | rfl | rfl | rfl | rfl | rfl
    · exact (by decide : ∀ d ∈ (['r', 'c', 'c'] : JsStr), d ≠ '\n') c hcu
    · exact ne_nl_of_digit c (natChars_digits idx c hcu)
    all_goals
      rcases toFixed6_classes _ c hcu with h | h | h
      · exact ne_nl_of_digit c h
      · rw [h]; decide
      · rw [h]; decide
  · decide

/-- `sph` body lines contain no newline. -/
theorem sphLine_no_nl (idx : ℕ) (p : Sph) : ∀ c ∈ sphLine idx p, c ≠ '\n' := by
  intro c hc
  rw [sphLine_eq_joinSp] at hc
  rcases mem_joinSp _ c hc with ⟨u, hu, hcu⟩ | rfl
  · simp only [List.mem_cons, List.not_mem_nil, or_false] at hu
    rcases hu with rfl | rfl | rfl | rfl | rfl | rfl
    · exact (by decide : ∀ d ∈ (['s', 'p', 'h'] : JsStr), d ≠ '\n') c hcu
    · exact ne_nl_of_digit c (natChars_digits idx c hcu)
    all_goals
      rcases toFixed6_classes _ c hcu with h | h | h
      · exact ne_nl_of_digit c h
      · rw [h]; decide
      · rw [h]; decide
  · decide

/-- `zn` lines contain no newline. -/
theorem znLine_no_nl (idx : ℕ) : ∀ c ∈ znLine idx, c ≠ '\n' := by
  intro c hc
  unfold znLine at hc
  rcases List.mem_append.mp hc with hc | hc
  · rcases List.mem_append.mp hc with hc | hc
    · rcases List.mem_append.mp hc with hc | hc
      · exact (by decide : ∀ d ∈ (['z', 'n'] : JsStr), d ≠ '\n') c hc
      · exact ne_nl_of_digit c (natChars_digits idx c hc)
    · exact (by decide : ∀ d ∈ ([' ', '1', ' '] : JsStr), d ≠ '\n') c hc
  · exact ne_nl_of_digit c (natChars_digits idx c hc)

/-- The material line contains no newline. -/
theorem exportMats_no_nl (codes : List ℕ) : ∀ c ∈ exportMats codes, c ≠ '\n' := by
  induction codes with
  | nil => intro c hc; simp [exportMats] at hc
  | cons k rest ih =>
    intro c hc
    rw [show exportMats (k :: rest) = natChars k ++ ' ' :: exportMats rest from rfl] at hc
    rcases List.mem_append.mp hc with hc | hc
    · exact ne_nl_of_digit c (natChars_digits k c hc)
    · rcases List.mem_cons.mp hc with rfl | hc
      · decide
      · exact ih c hc

/-- No emitted line contains a newline. -/
theorem exportLines_no_nl (F : JsMathModel) (cyls : List (JsStr × Cyl))
    (sphs : List (JsStr × Sph)) :
    ∀ l ∈ exportLines F cyls sphs, ∀ c ∈ l, c ≠ '\n' := by
  intro l hl
  unfold exportLines at hl
  simp only [List.append_assoc, List.mem_append, List.mem_cons, List.mem_map,
    List.not_mem_nil, or_false, List.mem_singleton] at hl
  rcases hl with ⟨e, _, rfl⟩ | ⟨e, _, rfl⟩ | rfl | ⟨k, _, rfl⟩ | rfl | rfl | rfl
  · exact rccLine_no_nl F e.1 e.2.2
  · exact sphLine_no_nl e.1 e.2.2
  · decide
  · exact znLine_no_nl (k + 1)
  · decide
  · exact exportMats_no_nl (sceneMats cyls sphs)
  · decide

/-- Splitting the exported file on newlines yields the structured line
list plus the empty fragment after the final newline. -/
theorem splitNl_handleExport (F : JsMathModel) (cyls : List (JsStr × Cyl))
    (sphs : List (JsStr × Sph)) :
    splitNl (handleExport F cyls sphs) = exportLines F cyls sphs ++ [[]] := by
  rw [handleExport_eq_joinLines]
  exact splitNl_joinLines _ (exportLines_no_nl F cyls sphs)

/-- Complete characterization of the scan of an exported scene: every
primitive is re-imported in order with renumbered identifiers, and the
material line is recognized. -/
theorem scanLines_handleExport (F : JsMathModel) (cyls : List (JsStr × Cyl))
    (sphs : List (JsStr × Sph)) :
    scanLines F (splitNl (handleExport F cyls sphs)) =
      { cyls := (List.enumFrom 1 cyls).map fun e => (cylName e.1, reimportCyl F e.2.2),
        sphs := (List.enumFrom 1 sphs).map fun e => (sphName e.1, reimportSph e.2.2),
        cylIndex := 1 + cyls.length,
        sphIndex := 1 + sphs.length,
        objectOrder :=
          ((List.enumFrom 1 cyls).map fun e => (ObjType.cylinder, cylName e.1)) ++
          ((List.enumFrom 1 sphs).map fun e => (ObjType.sphere, sphName e.1)),
        materialList := sceneMats cyls sphs } := by
  rw [splitNl_handleExport]
  unfold scanLines exportLines
  simp only [List.foldl_append, List.foldl_cons, List.foldl_nil]
  rw [scan_cylBody F cyls 1 scanInit, scan_sphBody F sphs (cyls.length + 1) _,
    processLine_endBody, scan_znLines, processLine_endZone]
  by_cases hempty : sceneMats cyls sphs = []
  · have hcs : cyls = [] ∧ sphs = [] := by
      have := congrArg List.length hempty
      simp [sceneMats] at this
      exact this
    obtain ⟨rfl, rfl⟩ := hcs
    rw [show exportMats (sceneMats [] []) = [] from rfl, processLine_empty,
      processLine_footer, processLine_empty]
    rfl
  · rw [processLine_mats F _ _ _ hempty (trim_exportMats _ hempty),
      processLine_footer, processLine_empty]
    simp [scanInit]

/-- `toFixed(6)` of zero denotes zero. -/
theorem round6_zero : round6 0 = 0 := by
  unfold round6 fix6
  norm_num

/-- `round6` of a positive value is nonnegative. -/
theorem round6_nonneg (x : ℚ) (h : 0 ≤ x) : 0 ≤ round6 x := by
  unfold round6 fix6
  rw [if_neg (by linarith)]
  have : (0 : ℤ) ≤ ⌊x * 1000000 + 1/2⌋ := by
    apply Int.floor_nonneg.mpr
    nlinarith
  positivity

/-- With exact cosine/sine at 0 and an exact unit square root, the
direction of the unrotated cylinder is the `y` axis. -/
theorem eulerToDirection_rot0 (F : JsMathModel) (hcos : F.cospi 0 = 1)
    (hsin : F.sinpi 0 = 0) (hsq1 : F.sq 1 = 1) :
    eulerToDirection F ⟨0, 0, 0⟩ = ⟨0, 1, 0⟩ := by
  unfold eulerToDirection
  norm_num [hcos, hsin, hsq1]

/-- Re-import of an exported unrotated cylinder, in closed form. -/
theorem reimportCyl_rot0 (F : JsMathModel) (c : Cyl)
    (hrot : c.rotation = ⟨0, 0, 0⟩)
    (hcos : F.cospi 0 = 1) (hsin : F.sinpi 0 = 0) (hsq1 : F.sq 1 = 1)
    (hsq0 : F.sq 0 = 0)
    (hsqh : F.sq (round6 c.height * round6 c.height) = round6 c.height)
    (hat0 : F.at2 0 (round6 c.height) = 0) (hat00 : F.at2 0 0 = 0) :
    reimportCyl F c =
      { radiusTop := round6 c.radiusTop, radiusBottom := round6 c.radiusTop,
        height := round6 c.height, rotation := ⟨0, 0, 0⟩,
        position := ⟨round6 c.position.x,
          round6 (c.position.y - c.height / 2) + round6 c.height / 2,
          round6 c.position.z⟩,
        materialType := .concrete } := by
  unfold reimportCyl
  rw [hrot, eulerToDirection_rot0 F hcos hsin hsq1]
  have e1 : c.position.x - 1/2 * c.height * (0 : ℚ) = c.position.x := by ring
  have e2 : c.position.y - 1/2 * c.height * (1 : ℚ) = c.position.y - c.height / 2 := by
    ring
  have e3 : c.position.z - 1/2 * c.height * (0 : ℚ) = c.position.z := by ring
  have e4 : (0 : ℚ) * c.height = 0 := by ring
  have e5 : (1 : ℚ) * c.height = c.height := by ring
  simp only [e1, e2, e3, e4, e5, round6_zero]
  have e6 : round6 c.height * round6 c.height + 0 * 0 = round6 c.height * round6 c.height := by
    ring
  have e7 : (0 : ℚ) * 0 + round6 c.height * round6 c.height + 0 * 0 =
      round6 c.height * round6 c.height := by ring
  have e8 : (0 : ℚ) * 0 + 0 * 0 = 0 := by ring
  simp only [e7, e8, hsqh, hsq0, hat0, hat00]
  norm_num

/-! ### C3: the export format -/

/-- **C3.** `handleExport` serializes deterministically in scene insertion
order: all cylinder `rcc` lines (base = center − ½·height·direction, the
direction components scaled by the height, every real through
`toFixed(6)`) before all sphere `sph` lines under one shared running
1-based index, then `end body`, one `zn<i> 1 <i>` line per primitive,
`end zone`, the material-code line in body order, and the sentinel
footer; the empty scene still emits `end body`, `end zone`, the empty
material line and the footer. -/
theorem C3_export_serialization (F : JsMathModel) (cyls : List (JsStr × Cyl))
    (sphs : List (JsStr × Sph)) :
    handleExport F cyls sphs = joinLines (exportLines F cyls sphs) ∧
    handleExport F [] [] = js "end body\nend zone\n\noesnt worend geom\n" :=
  ⟨handleExport_eq_joinLines F cyls sphs, rfl⟩

/-! ### The material-assignment pass -/

/-- `updCylMat` changes at most the material: all other fields survive. -/
theorem updCylMat_cylShape (id : JsStr) (m : MatName) (l : List (JsStr × Cyl)) :
    (updCylMat id m l).map cylShape = l.map cylShape := by
  unfold updCylMat
  rw [List.map_map]
  apply List.map_congr_left
  intro e _
  by_cases h : e.1 = id <;> simp [Function.comp, h, cylShape]

/-- `updSphMat` changes at most the material. -/
theorem updSphMat_sphShape (id : JsStr) (m : MatName) (l : List (JsStr × Sph)) :
    (updSphMat id m l).map sphShape = l.map sphShape := by
  unfold updSphMat
  rw [List.map_map]
  apply List.map_congr_left
  intro e _
  by_cases h : e.1 = id <;> simp [Function.comp, h, sphShape]

/-- The material-assignment pass leaves every non-material cylinder field
unchanged. -/
theorem assignMats_cylShape :
    ∀ (l : List ((ObjType × JsStr) × ℕ)) (st : ScanState),
    (assignMats l st).cyls.map cylShape = st.cyls.map cylShape := by
  intro l
  induction l with
  | nil => intro st; rfl
  | cons p rest ih =>
    intro st
    obtain ⟨⟨ty, id⟩, code⟩ := p
    cases ty
    · rw [show assignMats ((⟨ObjType.cylinder, id⟩, code) :: rest) st =
          assignMats rest { st with cyls := updCylMat id (materialMapReverse code) st.cyls }
          from rfl, ih]
      exact updCylMat_cylShape id _ st.cyls
    · rw [show assignMats ((⟨ObjType.sphere, id⟩, code) :: rest) st =
          assignMats rest { st with sphs := updSphMat id (materialMapReverse code) st.sphs }
          from rfl, ih]

/-- The material-assignment pass leaves every non-material sphere field
unchanged. -/
theorem assignMats_sphShape :
    ∀ (l : List ((ObjType × JsStr) × ℕ)) (st : ScanState),
    (assignMats l st).sphs.map sphShape = st.sphs.map sphShape := by
  intro l
  induction l with
  | nil => intro st; rfl
  | cons p rest ih =>
    intro st
    obtain ⟨⟨ty, id⟩, code⟩ := p
    cases ty
    · rw [show assignMats ((⟨ObjType.cylinder, id⟩, code) :: rest) st =
          assignMats rest { st with cyls := updCylMat id (materialMapReverse code) st.cyls }
          from rfl, ih]
    · rw [show assignMats ((⟨ObjType.sphere, id⟩, code) :: rest) st =
          assignMats rest { st with sphs := updSphMat id (materialMapReverse code) st.sphs }
          from rfl, ih]
      exact updSphMat_sphShape id _ st.sphs

/-- Whether or not the material list is applied, the imported geometry of
the cylinders is the scanned geometry. -/
theorem importCore_cylShape (F : JsMathModel) (text : JsStr) :
    (importCore F text).cyls.map cylShape =
      (scanLines F (splitNl text)).cyls.map cylShape := by
  simp only [importCore]
  split
  · exact assignMats_cylShape _ _
  · rfl

/-- Whether or not the material list is applied, the imported geometry of
the spheres is the scanned geometry. -/
theorem importCore_sphShape (F : JsMathModel) (text : JsStr) :
    (importCore F text).sphs.map sphShape =
      (scanLines F (splitNl text)).sphs.map sphShape := by
  simp only [importCore]
  split
  · exact assignMats_sphShape _ _
  · rfl

/-! ### C1: export / import round trip for unrotated cylinders -/

/-- **C1 (amended).** Export followed by import reproduces an unrotated
cylinder's radius, height and `x`/`z` position at 6-decimal precision,
and the rotation is again `[0,0,0]`; but the `y` position comes back as
`round6 (y − h/2) + round6 h / 2` — the rounding of the base and of the
direction, not of the center — which can differ from `round6 y`.  The
square-root and `atan2` hypotheses pin `F` to the exact real values at the
points the importer evaluates them. -/
theorem C1_cylinder_roundtrip_amended (F : JsMathModel)
    (cyls : List (JsStr × Cyl)) (sphs : List (JsStr × Sph)) (k : ℕ) (e : JsStr × Cyl)
    (hk : cyls.get? k = some e) (hrot : e.2.rotation = ⟨0, 0, 0⟩)
    (hcos : F.cospi 0 = 1) (hsin : F.sinpi 0 = 0) (hsq1 : F.sq 1 = 1) (hsq0 : F.sq 0 = 0)
    (hsqh : F.sq (round6 e.2.height * round6 e.2.height) = round6 e.2.height)
    (hat0 : F.at2 0 (round6 e.2.height) = 0) (hat00 : F.at2 0 0 = 0) :
    ((importedCylinders F (handleExport F cyls sphs)).get? k).map cylShape =
      some (cylName (k + 1), round6 e.2.radiusTop, round6 e.2.radiusTop,
        round6 e.2.height, (⟨0, 0, 0⟩ : Vec3),
        (⟨round6 e.2.position.x,
          round6 (e.2.position.y - e.2.height / 2) + round6 e.2.height / 2,
          round6 e.2.position.z⟩ : Vec3)) := by
  rw [importedCylinders, ← List.get?_map, importCore_cylShape,
    scanLines_handleExport]
  dsimp only
  rw [List.map_map, List.get?_map, List.get?_enumFrom, hk]
  simp only [Option.map_some', Function.comp]
  rw [reimportCyl_rot0 F e.2 hrot hcos hsin hsq1 hsq0 hsqh hat0 hat00,
    Nat.add_comm 1 k]
  rfl

/-- **C1 (counterexample to the literal claim).**  For the unrotated
cylinder of height `1/400000` centered at the origin the re-imported `y`
coordinate is `1/2000000`, while the 6-decimal rounding of the original
`y = 0` is `0`: the round trip is not exact at 6-decimal precision. -/
theorem C1_cylinder_roundtrip_counterexample :
    ((importedCylinders mathW (handleExport mathW
        [(js "cylinder1",
          { radiusTop := 1, radiusBottom := 1, height := 1/400000,
            rotation := ⟨0, 0, 0⟩, position := ⟨0, 0, 0⟩,
            materialType := .concrete })] [])).get? 0).map cylShape =
      some (cylName 1, 1, 1, 3/1000000, (⟨0, 0, 0⟩ : Vec3),
        (⟨0, 1/2000000, 0⟩ : Vec3)) ∧
    round6 (0 : ℚ) = 0 ∧ (1/2000000 : ℚ) ≠ (0 : ℚ) := by
  refine ⟨?_, round6_zero, by norm_num⟩
  rw [importedCylinders, ← List.get?_map, importCore_cylShape,
    scanLines_handleExport]
  dsimp only
  rw [List.map_map, List.get?_map, List.get?_enumFrom]
  simp only [List.get?, Option.map_some', Function.comp]
  rw [reimportCyl_rot0 mathW _ rfl rfl (by norm_num [mathW]) rfl rfl
    (by norm_num [mathW, round6, fix6]) rfl rfl]
  simp only [cylShape, Prod.mk.injEq, Vec3.mk.injEq]
  norm_num [round6, fix6]

/-- **C1 (witness).**  The amended round-trip theorem at a concrete
unrotated cylinder of height 2 at position `(1,2,3)`. -/
theorem C1_cylinder_roundtrip_witness :
    ((importedCylinders mathW (handleExport mathW
        [(js "cylinder1",
          { radiusTop := 1, radiusBottom := 1, height := 2,
            rotation := ⟨0, 0, 0⟩, position := ⟨1, 2, 3⟩,
            materialType := .concrete })] [])).get? 0).map cylShape =
      some (cylName 1, 1, 1, 2, (⟨0, 0, 0⟩ : Vec3), (⟨1, 2, 3⟩ : Vec3)) := by
  have h := C1_cylinder_roundtrip_amended mathW
    [(js "cylinder1",
      { radiusTop := 1, radiusBottom := 1, height := 2,
        rotation := ⟨0, 0, 0⟩, position := ⟨1, 2, 3⟩,
        materialType := .concrete })] [] 0 _ rfl rfl rfl
    (by norm_num [mathW]) rfl rfl
    (by norm_num [mathW, round6, fix6]) rfl rfl
  rw [h]
  norm_num [round6, fix6]

/-! ### C2: the rcc import formulas -/

/-- Generic form of the `rcc` branch of `processLine`: any trimmed line
that starts with `rcc` and has at least 9 tokens appends a cylinder built
by the reconstruction formulas from the parsed tokens. -/
theorem processLine_rcc_parts (F : JsMathModel) (st : ScanState) (raw : JsStr)
    (px py pz vx vy vz r : ℚ)
    (hstart : startsWithJs (trimChars raw) (js "rcc") = true)
    (hlen : 9 ≤ (splitWsChars (trimChars raw)).length)
    (h2 : parseFloatD ((splitWsChars (trimChars raw)).getD 2 []) = px)
    (h3 : parseFloatD ((splitWsChars (trimChars raw)).getD 3 []) = py)
    (h4 : parseFloatD ((splitWsChars (trimChars raw)).getD 4 []) = pz)
    (h5 : parseFloatD ((splitWsChars (trimChars raw)).getD 5 []) = vx)
    (h6 : parseFloatD ((splitWsChars (trimChars raw)).getD 6 []) = vy)
    (h7 : parseFloatD ((splitWsChars (trimChars raw)).getD 7 []) = vz)
    (h8 : parseFloatD ((splitWsChars (trimChars raw)).getD 8 []) = r) :
    processLine F st raw =
      { st with
        cyls := st.cyls ++ [(cylName st.cylIndex,
          { radiusTop := r, radiusBottom := r,
            height := F.sq (vx * vx + vy * vy + vz * vz),
            rotation := ⟨F.at2 (F.sq (vx * vx + vz * vz)) vy, F.at2 vx vz, 0⟩,
            position := ⟨px + vx / 2, py + vy / 2, pz + vz / 2⟩,
            materialType := .concrete })],
        cylIndex := st.cylIndex + 1,
        objectOrder := st.objectOrder ++ [(.cylinder, cylName st.cylIndex)] } := by
  unfold processLine
  simp only [hstart, if_true, hlen, if_pos, h2, h3, h4, h5, h6, h7, h8, cylName]

/-- Generic form of the `sph` branch of `processLine`. -/
theorem processLine_sph_parts (F : JsMathModel) (st : ScanState) (raw : JsStr)
    (px py pz r : ℚ)
    (hrcc : startsWithJs (trimChars raw) (js "rcc") = false)
    (hstart : startsWithJs (trimChars raw) (js "sph") = true)
    (hlen : 6 ≤ (splitWsChars (trimChars raw)).length)
    (h2 : parseFloatD ((splitWsChars (trimChars raw)).getD 2 []) = px)
    (h3 : parseFloatD ((splitWsChars (trimChars raw)).getD 3 []) = py)
    (h4 : parseFloatD ((splitWsChars (trimChars raw)).getD 4 []) = pz)
    (h5 : parseFloatD ((splitWsChars (trimChars raw)).getD 5 []) = r) :
    processLine F st raw =
      { st with
        sphs := st.sphs ++ [(sphName st.sphIndex,
          { radius := r, position := ⟨px, py, pz⟩, materialType := .concrete })],
        sphIndex := st.sphIndex + 1,
        objectOrder := st.objectOrder ++ [(.sphere, sphName st.sphIndex)] } := by
  unfold processLine
  simp only [hrcc, Bool.false_eq_true, if_false, hstart, if_true, hlen, if_pos,
    h2, h3, h4, h5, sphName]

/-- A rendered natural parses back to itself. -/
theorem parseFloatD_natChars (n : ℕ) : parseFloatD (natChars n) = (n : ℚ) := by
  have hd : ∀ x ∈ natChars n, x.isDigit = true := natChars_digits n
  have hQ : parseFloatQ (natChars n) = parseBody false (natChars n) := by
    obtain ⟨c, cs, hc⟩ := List.exists_cons_of_ne_nil (natChars_ne_nil n)
    rw [hc]
    exact parseFloatQ_digit_head c cs (hd c (hc ▸ List.mem_cons_self c cs))
  unfold parseFloatD
  rw [hQ]
  unfold parseBody
  have h1 : (natChars n).takeWhile Char.isDigit = natChars n := takeWhile_all _ hd
  have h2 : (natChars n).dropWhile Char.isDigit = [] :=
    List.dropWhile_eq_nil_iff.mpr fun x hx => hd x hx
  simp only [h1, h2]
  rw [if_neg (by simp [natChars_ne_nil n])]
  simp [natOfChars_natChars, show natOfChars [] = 0 from rfl]

/-- **C2.** A trimmed line that starts with `rcc` and splits into at least
9 whitespace-separated tokens imports as a cylinder whose radius is the
8th token unchanged, whose height is the square root of
`dx² + dy² + dz²`, whose center is the base plus half the direction, and
whose rotation is `⟨atan2(√(dx²+dz²), dy)/π, atan2(dx, dz)/π, 0⟩`;
moreover whenever the model's square root is exact at `dx² + dy² + dz²`
the stored height is the true Euclidean magnitude of `(dx, dy, dz)`. -/
theorem C2_rcc_line_import (F : JsMathModel) (st : ScanState) (raw : JsStr)
    (px py pz vx vy vz r : ℚ)
    (hstart : startsWithJs (trimChars raw) (js "rcc") = true)
    (hlen : 9 ≤ (splitWsChars (trimChars raw)).length)
    (h2 : parseFloatD ((splitWsChars (trimChars raw)).getD 2 []) = px)
    (h3 : parseFloatD ((splitWsChars (trimChars raw)).getD 3 []) = py)
    (h4 : parseFloatD ((splitWsChars (trimChars raw)).getD 4 []) = pz)
    (h5 : parseFloatD ((splitWsChars (trimChars raw)).getD 5 []) = vx)
    (h6 : parseFloatD ((splitWsChars (trimChars raw)).getD 6 []) = vy)
    (h7 : parseFloatD ((splitWsChars (trimChars raw)).getD 7 []) = vz)
    (h8 : parseFloatD ((splitWsChars (trimChars raw)).getD 8 []) = r) :
    processLine F st raw =
      { st with
        cyls := st.cyls ++ [(cylName st.cylIndex,
          { radiusTop := r, radiusBottom := r,
            height := F.sq (vx * vx + vy * vy + vz * vz),
            rotation := ⟨F.at2 (F.sq (vx * vx + vz * vz)) vy, F.at2 vx vz, 0⟩,
            position := ⟨px + vx / 2, py + vy / 2, pz + vz / 2⟩,
            materialType := .concrete })],
        cylIndex := st.cylIndex + 1,
        objectOrder := st.objectOrder ++ [(.cylinder, cylName st.cylIndex)] } ∧
    (∀ m : ℚ, 0 ≤ m → m * m = vx * vx + vy * vy + vz * vz →
      F.sq (vx * vx + vy * vy + vz * vz) = m →
      ((F.sq (vx * vx + vy * vy + vz * vz) : ℚ) : ℝ) =
        Real.sqrt ((vx * vx + vy * vy + vz * vz : ℚ) : ℝ)) := by
  constructor
  · exact processLine_rcc_parts F st raw px py pz vx vy vz r
      hstart hlen h2 h3 h4 h5 h6 h7 h8
  · intro m hm hmm hF
    rw [hF]
    have : ((vx * vx + vy * vy + vz * vz : ℚ) : ℝ) = (m : ℝ) * (m : ℝ) := by
      rw [← hmm]; push_cast; ring
    rw [this, Real.sqrt_mul_self (by exact_mod_cast hm)]

/-- **C2 (witness).**  The import formulas on the concrete line
`rcc 1 0 0 0 3 4 0 5` (a 3-4-0 direction, so height 5). -/
theorem C2_rcc_line_import_witness :
    processLine mathW scanInit (js "rcc 1 0 0 0 3 4 0 5") =
      { cyls := [(cylName 1,
          { radiusTop := 5, radiusBottom := 5, height := 5,
            rotation := ⟨0, 0, 0⟩, position := ⟨3/2, 2, 0⟩,
            materialType := .concrete })],
        sphs := [], cylIndex := 2, sphIndex := 1,
        objectOrder := [(.cylinder, cylName 1)], materialList := [] } ∧
    ((mathW.sq (3 * 3 + 4 * 4 + 0 * 0) : ℚ) : ℝ) =
      Real.sqrt ((3 * 3 + 4 * 4 + 0 * 0 : ℚ) : ℝ) := by
  have h := C2_rcc_line_import mathW scanInit (js "rcc 1 0 0 0 3 4 0 5")
    0 0 0 3 4 0 5
    (by decide) (by decide)
    (by rw [show (splitWsChars (trimChars (js "rcc 1 0 0 0 3 4 0 5"))).getD 2 []
          = natChars 0 by decide]; exact parseFloatD_natChars 0)
    (by rw [show (splitWsChars (trimChars (js "rcc 1 0 0 0 3 4 0 5"))).getD 3 []
          = natChars 0 by decide]; exact parseFloatD_natChars 0)
    (by rw [show (splitWsChars (trimChars (js "rcc 1 0 0 0 3 4 0 5"))).getD 4 []
          = natChars 0 by decide]; exact parseFloatD_natChars 0)
    (by rw [show (splitWsChars (trimChars (js "rcc 1 0 0 0 3 4 0 5"))).getD 5 []
          = natChars 3 by decide]; exact parseFloatD_natChars 3)
    (by rw [show (splitWsChars (trimChars (js "rcc 1 0 0 0 3 4 0 5"))).getD 6 []
          = natChars 4 by decide]; exact parseFloatD_natChars 4)
    (by rw [show (splitWsChars (trimChars (js "rcc 1 0 0 0 3 4 0 5"))).getD 7 []
          = natChars 0 by decide]; exact parseFloatD_natChars 0)
    (by rw [show (splitWsChars (trimChars (js "rcc 1 0 0 0 3 4 0 5"))).getD 8 []
          = natChars 5 by decide]; exact parseFloatD_natChars 5)
  refine ⟨?_, h.2 5 (by norm_num) (by norm_num) (by norm_num [mathW])⟩
  rw [h.1]
  simp only [scanInit, cylName, List.nil_append]
  norm_num [mathW]

/-! ### C8: atomic import, renumbering, selection -/

/-- `cylinder1 … cylinderN+1` extends the previous list. -/
theorem cylNames_succ (n : ℕ) : cylNames (n + 1) = cylNames n ++ [cylName (n + 1)] := by
  unfold cylNames
  rw [List.range_succ, List.map_append]
  rfl

/-- `sphere1 … sphereM+1` extends the previous list. -/
theorem sphNames_succ (n : ℕ) : sphNames (n + 1) = sphNames n ++ [sphName (n + 1)] := by
  unfold sphNames
  rw [List.range_succ, List.map_append]
  rfl

/-- One scan step preserves the identifier/material invariant. -/
theorem processLine_inv (F : JsMathModel) (st : ScanState) (raw : JsStr)
    (h : ScanInv st) : ScanInv (processLine F st raw) := by
  obtain ⟨hck, hci, hsk, hsi, hcm, hsm⟩ := h
  unfold ScanInv processLine
  by_cases h1 : startsWithJs (trimChars raw) (js "rcc") = true
  · by_cases h2 : 9 ≤ (splitWsChars (trimChars raw)).length
    · simp only [h1, if_true, h2, if_pos]
      refine ⟨?_, ?_, hsk, hsi, ?_, hsm⟩
      · rw [List.map_append, List.length_append, hck, hci]
        simp [cylNames_succ, cylName]
      · rw [List.length_append, hci]
        simp
      · intro e he
        rcases List.mem_append.mp he with he | he
        · exact hcm e he
        · simp only [List.mem_singleton] at he
          rw [he]
    · simp only [h1, if_true, h2, if_false]
      exact ⟨hck, hci, hsk, hsi, hcm, hsm⟩
  · by_cases h3 : startsWithJs (trimChars raw) (js "sph") = true
    · by_cases h4 : 6 ≤ (splitWsChars (trimChars raw)).length
      · simp only [h1, h3, if_true, h4, if_pos, Bool.false_eq_true, if_false]
        refine ⟨hck, hci, ?_, ?_, hcm, ?_⟩
        · rw [List.map_append, List.length_append, hsk, hsi]
          simp [sphNames_succ, sphName]
        · rw [List.length_append, hsi]
          simp
        · intro e he
          rcases List.mem_append.mp he with he | he
          · exact hsm e he
          · simp only [List.mem_singleton] at he
            rw [he]
      · simp only [h1, h3, if_true, h4, Bool.false_eq_true, if_false]
        exact ⟨hck, hci, hsk, hsi, hcm, hsm⟩
    · by_cases h5 : isNumericLine (trimChars raw) = true
      · simp only [h1, h3, h5, if_true, Bool.false_eq_true, if_false]
        exact ⟨hck, hci, hsk, hsi, hcm, hsm⟩
      · simp only [h1, h3, h5, Bool.false_eq_true, if_false]
        exact ⟨hck, hci, hsk, hsi, hcm, hsm⟩

/-- The whole scan satisfies the identifier/material invariant. -/
theorem scanLines_inv (F : JsMathModel) (lines : List JsStr) :
    ScanInv (scanLines F lines) := by
  rw [scanLines]
  have h : ∀ (L : List JsStr) (st : ScanState), ScanInv st →
      ScanInv (List.foldl (processLine F) st L) := by
    intro L
    induction L with
    | nil => intro st h; exact h
    | cons l ls ih =>
      intro st h
      exact ih _ (processLine_inv F st l h)
  exact h _ scanInit ⟨rfl, rfl, rfl, rfl, fun e he => absurd he (List.not_mem_nil e),
    fun e he => absurd he (List.not_mem_nil e)⟩

/-- Equal shape lists have equal key lists (cylinders). -/
theorem map_fst_of_cylShape {l1 l2 : List (JsStr × Cyl)}
    (h : l1.map cylShape = l2.map cylShape) : l1.map Prod.fst = l2.map Prod.fst := by
  have h2 := congrArg (List.map Prod.fst) h
  rw [List.map_map, List.map_map] at h2
  exact h2

/-- Equal shape lists have equal key lists (spheres). -/
theorem map_fst_of_sphShape {l1 l2 : List (JsStr × Sph)}
    (h : l1.map sphShape = l2.map sphShape) : l1.map Prod.fst = l2.map Prod.fst := by
  have h2 := congrArg (List.map Prod.fst) h
  rw [List.map_map, List.map_map] at h2
  exact h2

/-- The applied material pass does not disturb the cylinder keys. -/
theorem importCore_cyl_keys (F : JsMathModel) (text : JsStr) :
    (importCore F text).cyls.map Prod.fst =
      (scanLines F (splitNl text)).cyls.map Prod.fst :=
  map_fst_of_cylShape (importCore_cylShape F text)

/-- The applied material pass does not disturb the sphere keys. -/
theorem importCore_sph_keys (F : JsMathModel) (text : JsStr) :
    (importCore F text).sphs.map Prod.fst =
      (scanLines F (splitNl text)).sphs.map Prod.fst :=
  map_fst_of_sphShape (importCore_sphShape F text)

/-- **C8.** Import is atomic: if no `rcc`/`sph` record is recognized the
alert fires and the old state is returned unchanged; otherwise the scene
is wholesale replaced by the parsed primitives, whose identifiers are
`cylinder1 … cylinderN` and `sphere1 … sphereM` in insertion order, and
the selection becomes `cylinder1`, or `sphere1` when no cylinder was
parsed. -/
theorem C8_import_atomic (F : JsMathModel) (old : AppState) (text : JsStr) :
    ((importCore F text).cyls = [] ∧ (importCore F text).sphs = [] →
      handleFileImport F old text = (old, true)) ∧
    ((importCore F text).cyls ≠ [] ∨ (importCore F text).sphs ≠ [] →
      handleFileImport F old text =
        ({ cylinderParams := (importCore F text).cyls,
           sphereParams := (importCore F text).sphs,
           selectedObject :=
             if (importCore F text).cyls ≠ [] then js "cylinder1" else js "sphere1",
           selectedObjectType :=
             if (importCore F text).cyls ≠ [] then .cylinder else .sphere },
         false)) ∧
    (importCore F text).cyls.map Prod.fst =
      cylNames (importCore F text).cyls.length ∧
    (importCore F text).sphs.map Prod.fst =
      sphNames (importCore F text).sphs.length := by
  have hinv := scanLines_inv F (splitNl text)
  obtain ⟨hck, _, hsk, _, _, _⟩ := hinv
  have hclen : (importCore F text).cyls.length =
      (scanLines F (splitNl text)).cyls.length := by
    have h := congrArg List.length (importCore_cylShape F text)
    rwa [List.length_map, List.length_map] at h
  have hslen : (importCore F text).sphs.length =
      (scanLines F (splitNl text)).sphs.length := by
    have h := congrArg List.length (importCore_sphShape F text)
    rwa [List.length_map, List.length_map] at h
  refine ⟨?_, ?_, ?_, ?_⟩
  · rintro ⟨h1, h2⟩
    unfold handleFileImport
    rw [if_neg]
    simp [h1, h2]
  · intro h
    unfold handleFileImport
    rw [if_pos]
    · simp only [gt_iff_lt, List.length_pos]
    · rcases h with h | h
      · exact Or.inl (List.length_pos.mpr h)
      · exact Or.inr (List.length_pos.mpr h)
  · rw [importCore_cyl_keys, hclen, hck]
  · rw [importCore_sph_keys, hslen, hsk]

/-- Import of the single line `sph 1 2 3 4 5`, evaluated. -/
theorem importCore_sph_example :
    importCore mathW (js "sph 1 2 3 4 5") =
      { cyls := [], sphs := [(sphName 1,
          { radius := 5, position := ⟨2, 3, 4⟩, materialType := .concrete })],
        cylIndex := 1, sphIndex := 2,
        objectOrder := [(.sphere, sphName 1)], materialList := [] } := by
  have hline := processLine_sph_parts mathW scanInit (js "sph 1 2 3 4 5") 2 3 4 5
    (by decide) (by decide) (by decide)
    (by rw [show (splitWsChars (trimChars (js "sph 1 2 3 4 5"))).getD 2 []
          = natChars 2 by decide]; exact parseFloatD_natChars 2)
    (by rw [show (splitWsChars (trimChars (js "sph 1 2 3 4 5"))).getD 3 []
          = natChars 3 by decide]; exact parseFloatD_natChars 3)
    (by rw [show (splitWsChars (trimChars (js "sph 1 2 3 4 5"))).getD 4 []
          = natChars 4 by decide]; exact parseFloatD_natChars 4)
    (by rw [show (splitWsChars (trimChars (js "sph 1 2 3 4 5"))).getD 5 []
          = natChars 5 by decide]; exact parseFloatD_natChars 5)
  simp only [importCore,
    show splitNl (js "sph 1 2 3 4 5") = [js "sph 1 2 3 4 5"] from by decide,
    show scanLines mathW [js "sph 1 2 3 4 5"]
      = processLine mathW scanInit (js "sph 1 2 3 4 5") from rfl, hline]
  rw [if_neg (by decide)]
  rfl

/-- **C8 (witness).**  Importing the single sphere line replaces the empty
scene and selects `sphere1`. -/
theorem C8_import_atomic_witness :
    handleFileImport mathW
      { cylinderParams := [], sphereParams := [],
        selectedObject := js "cylinder1", selectedObjectType := .cylinder }
      (js "sph 1 2 3 4 5") =
      ({ cylinderParams := [], sphereParams := [(sphName 1,
           { radius := 5, position := ⟨2, 3, 4⟩, materialType := .concrete })],
         selectedObject := js "sphere1", selectedObjectType := .sphere },
       false) := by
  have h := (C8_import_atomic mathW
    { cylinderParams := [], sphereParams := [],
      selectedObject := js "cylinder1", selectedObjectType := .cylinder }
    (js "sph 1 2 3 4 5")).2.1 (by rw [importCore_sph_example]; simp)
  rw [h, importCore_sph_example]
  simp

/-! ### C9 / C10: the material-code line -/

/-- A line whose head is neither a digit nor whitespace is not numeric. -/
theorem numeric_head_ne (l : JsStr) (p : Char) (ps : JsStr) (hd : p.isDigit = false)
    (hw : isWsChar p = false) (hs : startsWithJs l (p :: ps) = true) :
    isNumericLine l = false := by
  cases l with
  | nil => cases hs
  | cons c cs =>
    have hc : c = p := by
      simp only [startsWithJs, Bool.and_eq_true, decide_eq_true_eq] at hs
      exact hs.1
    subst hc
    exact isNumericLine_cons_false c cs hd hw

/-- A scan step overwrites `materialList` exactly on all-numeric lines. -/
theorem processLine_materialList (F : JsMathModel) (st : ScanState) (raw : JsStr) :
    (processLine F st raw).materialList =
      if isNumericLine (trimChars raw)
      then (splitWsChars (trimChars raw)).map natOfChars
      else st.materialList := by
  unfold processLine
  by_cases h1 : startsWithJs (trimChars raw) (js "rcc") = true
  · have hn : isNumericLine (trimChars raw) = false :=
      numeric_head_ne _ 'r' (js "cc") (by decide) (by decide) h1
    by_cases h2 : 9 ≤ (splitWsChars (trimChars raw)).length
    · simp only [h1, if_true, h2, if_pos, hn, Bool.false_eq_true, if_false]
    · simp only [h1, if_true, h2, if_false, hn, Bool.false_eq_true]
  · by_cases h3 : startsWithJs (trimChars raw) (js "sph") = true
    · have hn : isNumericLine (trimChars raw) = false :=
        numeric_head_ne _ 's' (js "ph") (by decide) (by decide) h3
      by_cases h4 : 6 ≤ (splitWsChars (trimChars raw)).length
      · simp only [h1, h3, if_true, h4, if_pos, hn, Bool.false_eq_true, if_false]
      · simp only [h1, h3, if_true, h4, if_false, hn, Bool.false_eq_true]
    · by_cases h5 : isNumericLine (trimChars raw) = true
      · simp only [h1, h3, h5, if_true, Bool.false_eq_true, if_false]
      · simp only [h1, h3, h5, Bool.false_eq_true, if_false]

/-- The scan's `materialList` is the token list of the last all-numeric
line (the starting value when there is none). -/
theorem scan_materialList (F : JsMathModel) :
    ∀ (lines : List JsStr) (st : ScanState),
    (List.foldl (processLine F) st lines).materialList =
      match ((lines.map trimChars).filter fun l => isNumericLine l).getLast? with
      | some t => (splitWsChars t).map natOfChars
      | none => st.materialList := by
  intro lines
  induction lines with
  | nil => intro st; rfl
  | cons l ls ih =>
    intro st
    rw [List.foldl_cons, ih (processLine F st l), List.map_cons, List.filter_cons]
    by_cases hn : isNumericLine (trimChars l) = true
    · simp only [hn, if_true]
      cases hL : ((ls.map trimChars).filter fun x => isNumericLine x) with
      | nil =>
        simp only [List.getLast?_nil, List.getLast?_singleton]
        rw [processLine_materialList, if_pos hn]
      | cons a as =>
        rw [List.getLast?_cons_cons]
        cases hx : (a :: as).getLast? with
        | some t => rfl
        | none => simp at hx
    · simp only [hn, Bool.false_eq_true, if_false]
      cases hg : ((ls.map trimChars).filter fun x => isNumericLine x).getLast? with
      | some t => rfl
      | none =>
        rw [processLine_materialList, if_neg (by simp [hn])]

/-- The retained material-list candidate is the last all-numeric line. -/
theorem scanLines_materialList (F : JsMathModel) (lines : List JsStr) :
    (scanLines F lines).materialList = lastNumericTokens lines := by
  rw [scanLines, scan_materialList F lines scanInit]
  unfold lastNumericTokens
  cases ((lines.map trimChars).filter fun l => isNumericLine l).getLast? <;> rfl

/-- Parsing a token known to be a rendered natural. -/
theorem parseFloatD_of_natChars (toks : List JsStr) (i n : ℕ)
    (h : toks.getD i [] = natChars n) : parseFloatD (toks.getD i []) = (n : ℚ) := by
  rw [h]
  exact parseFloatD_natChars n

/-- A map that is constant on the members of a list is a `replicate`. -/
theorem map_eq_replicate_of_mem {α β : Type} (f : α → β) (c : β) :
    ∀ (l : List α), (∀ x ∈ l, f x = c) → l.map f = List.replicate l.length c := by
  intro l
  induction l with
  | nil => intro _; rfl
  | cons a as ih =>
    intro h
    rw [List.map_cons, h a (List.mem_cons_self a as), List.length_cons,
      List.replicate_succ, ih fun x hx => h x (List.mem_cons_of_mem a hx)]

/-- Parsing a token known to be a rendered natural, with the value cast. -/
theorem parseFloatD_token (toks : List JsStr) (i n : ℕ) (q : ℚ)
    (h : toks.getD i [] = natChars n) (hq : (n : ℚ) = q) :
    parseFloatD (toks.getD i []) = q := by
  rw [h, parseFloatD_natChars, hq]

/-- The scan of `rcc`, `sph` and code lines `2 7`, evaluated. -/
theorem scan_cyl_sph_27 (F : JsMathModel) :
    scanLines F (splitNl (js "rcc 1 0 0 0 0 1 0 1\nsph 2 5 0 0 1\n2 7")) =
      { cyls := [(cylName 1, cyl010 F)],
        sphs := [(sphName 1,
          { radius := 1, position := ⟨5, 0, 0⟩, materialType := .concrete })],
        cylIndex := 2, sphIndex := 2,
        objectOrder := [(.cylinder, cylName 1), (.sphere, sphName 1)],
        materialList := [2, 7] } := by
  rw [show splitNl (js "rcc 1 0 0 0 0 1 0 1\nsph 2 5 0 0 1\n2 7") =
      [js "rcc 1 0 0 0 0 1 0 1", js "sph 2 5 0 0 1", js "2 7"] from by decide]
  rw [show scanLines F [js "rcc 1 0 0 0 0 1 0 1", js "sph 2 5 0 0 1", js "2 7"] =
      processLine F (processLine F (processLine F scanInit
        (js "rcc 1 0 0 0 0 1 0 1")) (js "sph 2 5 0 0 1")) (js "2 7") from rfl]
  rw [processLine_rcc_parts F scanInit (js "rcc 1 0 0 0 0 1 0 1") 0 0 0 0 1 0 1
    (by decide) (by decide)
    (parseFloatD_token _ 2 0 0 (by decide) (by norm_num))
    (parseFloatD_token _ 3 0 0 (by decide) (by norm_num))
    (parseFloatD_token _ 4 0 0 (by decide) (by norm_num))
    (parseFloatD_token _ 5 0 0 (by decide) (by norm_num))
    (parseFloatD_token _ 6 1 1 (by decide) (by norm_num))
    (parseFloatD_token _ 7 0 0 (by decide) (by norm_num))
    (parseFloatD_token _ 8 1 1 (by decide) (by norm_num))]
  rw [processLine_sph_parts F _ (js "sph 2 5 0 0 1") 5 0 0 1
    (by decide) (by decide) (by decide)
    (parseFloatD_token _ 2 5 5 (by decide) (by norm_num))
    (parseFloatD_token _ 3 0 0 (by decide) (by norm_num))
    (parseFloatD_token _ 4 0 0 (by decide) (by norm_num))
    (parseFloatD_token _ 5 1 1 (by decide) (by norm_num))]
  rw [processLine_mats F _ (js "2 7") [2, 7] (by decide) (by decide)]
  rfl

/-- The scan of an `rcc` line followed by the numeric lines `2` and
`3 3`: the later numeric line replaces the earlier matching one. -/
theorem scan_cyl_2_33 (F : JsMathModel) :
    scanLines F (splitNl (js "rcc 1 0 0 0 0 1 0 1\n2\n3 3")) =
      { cyls := [(cylName 1, cyl010 F)], sphs := [],
        cylIndex := 2, sphIndex := 1,
        objectOrder := [(.cylinder, cylName 1)],
        materialList := [3, 3] } := by
  rw [show splitNl (js "rcc 1 0 0 0 0 1 0 1\n2\n3 3") =
      [js "rcc 1 0 0 0 0 1 0 1", js "2", js "3 3"] from by decide]
  rw [show scanLines F [js "rcc 1 0 0 0 0 1 0 1", js "2", js "3 3"] =
      processLine F (processLine F (processLine F scanInit
        (js "rcc 1 0 0 0 0 1 0 1")) (js "2")) (js "3 3") from rfl]
  rw [processLine_rcc_parts F scanInit (js "rcc 1 0 0 0 0 1 0 1") 0 0 0 0 1 0 1
    (by decide) (by decide)
    (parseFloatD_token _ 2 0 0 (by decide) (by norm_num))
    (parseFloatD_token _ 3 0 0 (by decide) (by norm_num))
    (parseFloatD_token _ 4 0 0 (by decide) (by norm_num))
    (parseFloatD_token _ 5 0 0 (by decide) (by norm_num))
    (parseFloatD_token _ 6 1 1 (by decide) (by norm_num))
    (parseFloatD_token _ 7 0 0 (by decide) (by norm_num))
    (parseFloatD_token _ 8 1 1 (by decide) (by norm_num))]
  rw [processLine_mats F _ (js "2") [2] (by decide) (by decide)]
  rw [processLine_mats F _ (js "3 3") [3, 3] (by decide) (by decide)]
  rfl

/-- The scan of an `rcc` line followed by the mismatching numeric line
`5 5 5`, evaluated. -/
theorem scan_cyl_555 (F : JsMathModel) :
    scanLines F (splitNl (js "rcc 1 0 0 0 0 1 0 1\n5 5 5")) =
      { cyls := [(cylName 1, cyl010 F)], sphs := [],
        cylIndex := 2, sphIndex := 1,
        objectOrder := [(.cylinder, cylName 1)],
        materialList := [5, 5, 5] } := by
  rw [show splitNl (js "rcc 1 0 0 0 0 1 0 1\n5 5 5") =
      [js "rcc 1 0 0 0 0 1 0 1", js "5 5 5"] from by decide]
  rw [show scanLines F [js "rcc 1 0 0 0 0 1 0 1", js "5 5 5"] =
      processLine F (processLine F scanInit (js "rcc 1 0 0 0 0 1 0 1"))
        (js "5 5 5") from rfl]
  rw [processLine_rcc_parts F scanInit (js "rcc 1 0 0 0 0 1 0 1") 0 0 0 0 1 0 1
    (by decide) (by decide)
    (parseFloatD_token _ 2 0 0 (by decide) (by norm_num))
    (parseFloatD_token _ 3 0 0 (by decide) (by norm_num))
    (parseFloatD_token _ 4 0 0 (by decide) (by norm_num))
    (parseFloatD_token _ 5 0 0 (by decide) (by norm_num))
    (parseFloatD_token _ 6 1 1 (by decide) (by norm_num))
    (parseFloatD_token _ 7 0 0 (by decide) (by norm_num))
    (parseFloatD_token _ 8 1 1 (by decide) (by norm_num))]
  rw [processLine_mats F _ (js "5 5 5") [5, 5, 5] (by decide) (by decide)]
  rfl

/-- The scan of two `rcc` lines followed by the matching numeric line
`2 3` and the mismatching numeric line `1 2 3`, evaluated. -/
theorem scan_cyl2_23_123 (F : JsMathModel) :
    scanLines F (splitNl
        (js "rcc 1 0 0 0 0 1 0 1\nrcc 1 0 0 0 0 1 0 1\n2 3\n1 2 3")) =
      { cyls := [(cylName 1, cyl010 F), (cylName 2, cyl010 F)], sphs := [],
        cylIndex := 3, sphIndex := 1,
        objectOrder := [(.cylinder, cylName 1), (.cylinder, cylName 2)],
        materialList := [1, 2, 3] } := by
  rw [show splitNl (js "rcc 1 0 0 0 0 1 0 1\nrcc 1 0 0 0 0 1 0 1\n2 3\n1 2 3") =
      [js "rcc 1 0 0 0 0 1 0 1", js "rcc 1 0 0 0 0 1 0 1", js "2 3", js "1 2 3"]
      from by decide]
  rw [show scanLines F [js "rcc 1 0 0 0 0 1 0 1", js "rcc 1 0 0 0 0 1 0 1",
        js "2 3", js "1 2 3"] =
      processLine F (processLine F (processLine F (processLine F scanInit
        (js "rcc 1 0 0 0 0 1 0 1")) (js "rcc 1 0 0 0 0 1 0 1")) (js "2 3"))
        (js "1 2 3") from rfl]
  rw [processLine_rcc_parts F scanInit (js "rcc 1 0 0 0 0 1 0 1") 0 0 0 0 1 0 1
    (by decide) (by decide)
    (parseFloatD_token _ 2 0 0 (by decide) (by norm_num))
    (parseFloatD_token _ 3 0 0 (by decide) (by norm_num))
    (parseFloatD_token _ 4 0 0 (by decide) (by norm_num))
    (parseFloatD_token _ 5 0 0 (by decide) (by norm_num))
    (parseFloatD_token _ 6 1 1 (by decide) (by norm_num))
    (parseFloatD_token _ 7 0 0 (by decide) (by norm_num))
    (parseFloatD_token _ 8 1 1 (by decide) (by norm_num))]
  rw [processLine_rcc_parts F _ (js "rcc 1 0 0 0 0 1 0 1") 0 0 0 0 1 0 1
    (by decide) (by decide)
    (parseFloatD_token _ 2 0 0 (by decide) (by norm_num))
    (parseFloatD_token _ 3 0 0 (by decide) (by norm_num))
    (parseFloatD_token _ 4 0 0 (by decide) (by norm_num))
    (parseFloatD_token _ 5 0 0 (by decide) (by norm_num))
    (parseFloatD_token _ 6 1 1 (by decide) (by norm_num))
    (parseFloatD_token _ 7 0 0 (by decide) (by norm_num))
    (parseFloatD_token _ 8 1 1 (by decide) (by norm_num))]
  rw [processLine_mats F _ (js "2 3") [2, 3] (by decide) (by decide)]
  rw [processLine_mats F _ (js "1 2 3") [1, 2, 3] (by decide) (by decide)]
  rfl

/-- **C9 (amended).**  The material-list candidate is the token list of
the *last* all-numeric line, not of every matching numeric line; when the
retained candidate's token count differs from the primitive count (or
there is none) the assignment pass is skipped and every primitive keeps
the default `concrete`; when it matches, the codes apply positionally in
body order with `1 = concrete`, `2 = steel`, `3 = wood`, `4 = standard`
and any other code defaulting to `concrete` (instance: codes `2 7` on a
cylinder-then-sphere scene give a steel cylinder and a concrete
sphere). -/
theorem C9_material_codes_amended (F : JsMathModel) (text : JsStr) :
    (scanLines F (splitNl text)).materialList = lastNumericTokens (splitNl text) ∧
    (¬((scanLines F (splitNl text)).materialList.length > 0 ∧
        (scanLines F (splitNl text)).objectOrder.length =
          (scanLines F (splitNl text)).materialList.length) →
      (importedCylinders F text).map (fun e => e.2.materialType) =
        List.replicate (importedCylinders F text).length MatName.concrete ∧
      (importedSpheres F text).map (fun e => e.2.materialType) =
        List.replicate (importedSpheres F text).length MatName.concrete) ∧
    ((importedCylinders F (js "rcc 1 0 0 0 0 1 0 1\nsph 2 5 0 0 1\n2 7")).map
        (fun e => (e.1, e.2.materialType)) = [(cylName 1, MatName.steel)] ∧
     (importedSpheres F (js "rcc 1 0 0 0 0 1 0 1\nsph 2 5 0 0 1\n2 7")).map
        (fun e => (e.1, e.2.materialType)) = [(sphName 1, MatName.concrete)]) := by
  refine ⟨scanLines_materialList F (splitNl text), ?_, rfl, rfl⟩
  intro h
  have hic : importCore F text = scanLines F (splitNl text) := by
    simp only [importCore]
    rw [if_neg h]
  obtain ⟨_, _, _, _, hcm, hsm⟩ := scanLines_inv F (splitNl text)
  rw [importedCylinders, importedSpheres, hic]
  exact ⟨map_eq_replicate_of_mem _ _ _ hcm, map_eq_replicate_of_mem _ _ _ hsm⟩

/-- **C9 (counterexample to the literal claim).**  In
`rcc … \n 2 \n 3 3` the line `2` is all-numeric and its token count
equals the primitive count (one), yet it is *not* treated as the material
list — the later line `3 3` supersedes it, mismatches, and the cylinder
stays `concrete` instead of becoming steel. -/
theorem C9_material_codes_counterexample :
    isNumericLine (trimChars (js "2")) = true ∧
    (splitWsChars (trimChars (js "2"))).length =
      (importedCylinders mathW (js "rcc 1 0 0 0 0 1 0 1\n2\n3 3")).length +
      (importedSpheres mathW (js "rcc 1 0 0 0 0 1 0 1\n2\n3 3")).length ∧
    materialMapReverse 2 = MatName.steel ∧
    (importedCylinders mathW (js "rcc 1 0 0 0 0 1 0 1\n2\n3 3")).map
      (fun e => (e.1, e.2.materialType)) = [(cylName 1, MatName.concrete)] :=
  ⟨rfl, rfl, rfl, rfl⟩

/-- **C9 (witness).**  The skip branch of the amended theorem at the
mismatching scene `rcc … \n 5 5 5`: every imported cylinder is
concrete. -/
theorem C9_material_codes_witness :
    (importedCylinders mathW (js "rcc 1 0 0 0 0 1 0 1\n5 5 5")).map
        (fun e => e.2.materialType) =
      List.replicate
        (importedCylinders mathW (js "rcc 1 0 0 0 0 1 0 1\n5 5 5")).length
        MatName.concrete := by
  refine ((C9_material_codes_amended mathW
    (js "rcc 1 0 0 0 0 1 0 1\n5 5 5")).2.1 ?_).1
  rw [scan_cyl_555]
  decide

/-- **C10.**  Only the last all-numeric line is retained as the
material-list candidate, whatever came before it; in particular an
earlier matching numeric line (`2 3`, two primitives) is discarded when a
later mismatching one (`1 2 3`) follows, so assignment is skipped and
both cylinders keep the default `concrete`. -/
theorem C10_last_numeric_wins (F : JsMathModel) (pre post : List JsStr) (l2 : JsStr)
    (h2 : isNumericLine (trimChars l2) = true)
    (hpost : ∀ l ∈ post, isNumericLine (trimChars l) = false) :
    (scanLines F (pre ++ l2 :: post)).materialList =
      (splitWsChars (trimChars l2)).map natOfChars ∧
    ((importedCylinders F
        (js "rcc 1 0 0 0 0 1 0 1\nrcc 1 0 0 0 0 1 0 1\n2 3\n1 2 3")).map
        (fun e => (e.1, e.2.materialType)) =
      [(cylName 1, MatName.concrete), (cylName 2, MatName.concrete)] ∧
     (scanLines F (splitNl
        (js "rcc 1 0 0 0 0 1 0 1\nrcc 1 0 0 0 0 1 0 1\n2 3\n1 2 3"))).materialList
       = [1, 2, 3]) := by
  refine ⟨?_, rfl, ?_⟩
  · rw [scanLines, scan_materialList]
    have hfp : (post.map trimChars).filter (fun l => isNumericLine l) = [] := by
      rw [List.filter_eq_nil_iff]
      intro x hx
      obtain ⟨l, hl, rfl⟩ := List.mem_map.mp hx
      simp [hpost l hl]
    rw [List.map_append, List.filter_append, List.map_cons, List.filter_cons]
    simp only [h2, if_true, hfp]
    rw [List.getLast?_concat]
  · rw [scan_cyl2_23_123]

/-- **C10 (witness).**  The last-numeric-line rule on the concrete line
list `x`, `4 4`, `end`. -/
theorem C10_last_numeric_wins_witness :
    (scanLines mathW ([js "x"] ++ js "4 4" :: [js "end"])).materialList = [4, 4] := by
  have h := (C10_last_numeric_wins mathW [js "x"] [js "end"] (js "4 4")
    (by decide) (by decide)).1
  rw [h]
  decide
